import Mathlib

/-!
# Verification of the SPARTA `read_isurf` implicit-surface pipeline

A shallow embedding, over exact rationals, of the marching-squares /
marching-cubes surface extraction and the face-cleanup protocol of
`ReadISurf` (`read_isurf.cpp`).  C `double` arithmetic is modelled by `ℚ`,
corner samples by `ℤ`, cell/surface indices by `ℕ`, and cell IDs by `ℤ`.
Every definition is translated from the C++ source; the few collaborators
whose code is not part of the repository snapshot (the `Geometry`
face-classifier and the `Surf::Tri` record layout) are modelled from the
specification and marked as such in their doc comments.
-/

namespace Sparta

/-- A 3-D point or vector with rational coordinates (a C `double[3]`). -/
structure Vec3 where
  x : ℚ
  y : ℚ
  z : ℚ
deriving DecidableEq, Repr

instance : Inhabited Vec3 := ⟨⟨0, 0, 0⟩⟩

/-- `v[d]` for `d = 0,1,2`, as in C indexing `norm[idim]`. -/
def Vec3.coord (v : Vec3) (d : ℕ) : ℚ :=
  if d = 0 then v.x else if d = 1 then v.y else v.z

/-- `ReadISurf::interpolate` (source lines 589-595): linear interpolation of
the threshold crossing along an edge whose endpoints at coordinates
`lo`/`hi` carry integer sample values `v0`/`v1`, followed by
`MAX`/`MIN` clamping exactly as in the source. -/
def interpolate (thresh : ℚ) (v0 v1 : ℤ) (lo hi : ℚ) : ℚ :=
  let value := lo + (hi - lo) * (thresh - (v0 : ℚ)) / ((v1 : ℚ) - (v0 : ℚ))
  let value := max value lo
  let value := min value hi
  value

/-- Following the spec's words for claim C8: the raw interpolation formula
`lo + (hi-lo)*(t - v0)/(v1 - v0)` with the result "clamped to the interval
`[lo, hi]`", written independently of the source's `MAX`/`MIN` sequence. -/
def clampToInterval (lo hi xv : ℚ) : ℚ :=
  if xv < lo then lo else if hi < xv then hi else xv

/-- The eight iso-shifted corner samples of one 3-D grid cell:
`vZYXiso = vZYX - thresh` (source lines 877-884).  All the face and
interior tests of the Lewiner disambiguation read only these values. -/
structure Cube where
  v000iso : ℚ
  v001iso : ℚ
  v010iso : ℚ
  v011iso : ℚ
  v100iso : ℚ
  v101iso : ℚ
  v110iso : ℚ
  v111iso : ℚ
deriving DecidableEq, Repr

/-- `EPSILON` (source line 54): `1.0e-16`. -/
def EPSILON : ℚ := 1 / 10 ^ 16

/-- The face-corner selection of `ReadISurf::test_face` (source lines
1368-1416): the quadruple `A, B, C, D` of iso-values for face codes
`±1 .. ±6` (the selection ignores the sign of the code), `none` for an
invalid face code (the source aborts with "Invalid face code"). -/
def faceABCD (c : Cube) (face : ℤ) : Option (ℚ × ℚ × ℚ × ℚ) :=
  if face = 1 ∨ face = -1 then some (c.v000iso, c.v100iso, c.v101iso, c.v001iso)
  else if face = 2 ∨ face = -2 then some (c.v001iso, c.v101iso, c.v111iso, c.v011iso)
  else if face = 3 ∨ face = -3 then some (c.v011iso, c.v111iso, c.v110iso, c.v010iso)
  else if face = 4 ∨ face = -4 then some (c.v010iso, c.v110iso, c.v100iso, c.v000iso)
  else if face = 5 ∨ face = -5 then some (c.v000iso, c.v010iso, c.v011iso, c.v001iso)
  else if face = 6 ∨ face = -6 then some (c.v100iso, c.v110iso, c.v111iso, c.v101iso)
  else none

/-- `ReadISurf::test_face` (source lines 1364-1420): the bilinear saddle
test on one cube face.  After selecting `A,B,C,D`, the source returns
`face >= 0` when `|A*C - B*D| < EPSILON`, and
`face * A * (A*C - B*D) >= 0` otherwise. -/
def test_face (c : Cube) (face : ℤ) : Option Bool :=
  match faceABCD c face with
  | none => none
  | some (A, B, C, D) =>
    some (if |A * C - B * D| < EPSILON then decide (0 ≤ face)
          else decide (0 ≤ (face : ℚ) * A * (A * C - B * D)))

/-- `ReadISurf::interior_ambiguity` (source lines 1677-1709): for an
ambiguous face and a sign `s`, the cube edge joining the two corners that
are inside with respect to `s`.  The source tests the four diagonal corner
pairs with independent `if`s, so a later match overwrites an earlier one;
the C variable `edge` is left uninitialized when no pair matches (and when
`amb_face` is invalid), which we model as `-1`. -/
def interior_ambiguity (c : Cube) (amb_face : ℤ) (s : ℤ) : ℤ :=
  if amb_face = 1 ∨ amb_face = 3 then
    let edge : ℤ := -1
    let edge := if 0 < c.v001iso * (s : ℚ) ∧ 0 < c.v110iso * (s : ℚ) then 4 else edge
    let edge := if 0 < c.v000iso * (s : ℚ) ∧ 0 < c.v111iso * (s : ℚ) then 5 else edge
    let edge := if 0 < c.v010iso * (s : ℚ) ∧ 0 < c.v101iso * (s : ℚ) then 6 else edge
    let edge := if 0 < c.v011iso * (s : ℚ) ∧ 0 < c.v100iso * (s : ℚ) then 7 else edge
    edge
  else if amb_face = 2 ∨ amb_face = 4 then
    let edge : ℤ := -1
    let edge := if 0 < c.v001iso * (s : ℚ) ∧ 0 < c.v110iso * (s : ℚ) then 0 else edge
    let edge := if 0 < c.v011iso * (s : ℚ) ∧ 0 < c.v100iso * (s : ℚ) then 1 else edge
    let edge := if 0 < c.v010iso * (s : ℚ) ∧ 0 < c.v101iso * (s : ℚ) then 2 else edge
    let edge := if 0 < c.v000iso * (s : ℚ) ∧ 0 < c.v111iso * (s : ℚ) then 3 else edge
    edge
  else if amb_face = 5 ∨ amb_face = 6 ∨ amb_face = 0 then
    let edge : ℤ := -1
    let edge := if 0 < c.v000iso * (s : ℚ) ∧ 0 < c.v111iso * (s : ℚ) then 8 else edge
    let edge := if 0 < c.v001iso * (s : ℚ) ∧ 0 < c.v110iso * (s : ℚ) then 9 else edge
    let edge := if 0 < c.v011iso * (s : ℚ) ∧ 0 < c.v100iso * (s : ℚ) then 10 else edge
    let edge := if 0 < c.v010iso * (s : ℚ) ∧ 0 < c.v101iso * (s : ℚ) then 11 else edge
    edge
  else -1

/-- The quadratic coefficients `(a, b)` computed at the head of each edge
case of `ReadISurf::interior_ambiguity_verification` (source lines
1713-2036), transcribed case by case; `(0, 0)` for an edge outside
`0..11` (such an edge never reaches these formulas in the source). -/
def iav_ab (c : Cube) (edge : ℤ) : ℚ × ℚ :=
  if edge = 0 then
    ((c.v000iso - c.v001iso) * (c.v110iso - c.v111iso) -
       (c.v100iso - c.v101iso) * (c.v010iso - c.v011iso),
     c.v111iso * (c.v000iso - c.v001iso) + c.v001iso * (c.v110iso - c.v111iso) -
       c.v011iso * (c.v100iso - c.v101iso) - c.v101iso * (c.v010iso - c.v011iso))
  else if edge = 1 then
    ((c.v010iso - c.v011iso) * (c.v100iso - c.v101iso) -
       (c.v000iso - c.v001iso) * (c.v110iso - c.v111iso),
     c.v101iso * (c.v010iso - c.v011iso) + c.v011iso * (c.v100iso - c.v101iso) -
       c.v111iso * (c.v000iso - c.v001iso) - c.v001iso * (c.v110iso - c.v111iso))
  else if edge = 2 then
    ((c.v011iso - c.v010iso) * (c.v101iso - c.v100iso) -
       (c.v111iso - c.v110iso) * (c.v001iso - c.v000iso),
     c.v100iso * (c.v011iso - c.v010iso) + c.v010iso * (c.v101iso - c.v100iso) -
       c.v000iso * (c.v111iso - c.v110iso) - c.v110iso * (c.v001iso - c.v000iso))
  else if edge = 3 then
    ((c.v001iso - c.v000iso) * (c.v111iso - c.v110iso) -
       (c.v011iso - c.v010iso) * (c.v101iso - c.v100iso),
     c.v110iso * (c.v001iso - c.v000iso) + c.v000iso * (c.v111iso - c.v110iso) -
       c.v100iso * (c.v011iso - c.v010iso) - c.v010iso * (c.v101iso - c.v100iso))
  else if edge = 4 then
    ((c.v011iso - c.v001iso) * (c.v110iso - c.v100iso) -
       (c.v010iso - c.v000iso) * (c.v111iso - c.v101iso),
     c.v100iso * (c.v011iso - c.v001iso) + c.v001iso * (c.v110iso - c.v100iso) -
       c.v101iso * (c.v010iso - c.v000iso) - c.v000iso * (c.v111iso - c.v101iso))
  else if edge = 5 then
    ((c.v010iso - c.v000iso) * (c.v111iso - c.v101iso) -
       (c.v011iso - c.v001iso) * (c.v110iso - c.v100iso),
     c.v101iso * (c.v010iso - c.v000iso) + c.v000iso * (c.v111iso - c.v101iso) -
       c.v100iso * (c.v011iso - c.v001iso) - c.v001iso * (c.v110iso - c.v100iso))
  else if edge = 6 then
    ((c.v000iso - c.v010iso) * (c.v101iso - c.v111iso) -
       (c.v100iso - c.v110iso) * (c.v001iso - c.v011iso),
     c.v111iso * (c.v000iso - c.v010iso) + c.v010iso * (c.v101iso - c.v111iso) -
       c.v011iso * (c.v100iso - c.v110iso) - c.v110iso * (c.v001iso - c.v011iso))
  else if edge = 7 then
    ((c.v001iso - c.v011iso) * (c.v100iso - c.v110iso) -
       (c.v000iso - c.v010iso) * (c.v101iso - c.v111iso),
     c.v110iso * (c.v001iso - c.v011iso) + c.v011iso * (c.v100iso - c.v110iso) -
       c.v111iso * (c.v000iso - c.v010iso) - c.v010iso * (c.v101iso - c.v111iso))
  else if edge = 8 then
    ((c.v100iso - c.v000iso) * (c.v111iso - c.v011iso) -
       (c.v110iso - c.v010iso) * (c.v101iso - c.v001iso),
     c.v011iso * (c.v100iso - c.v000iso) + c.v000iso * (c.v111iso - c.v011iso) -
       c.v001iso * (c.v110iso - c.v010iso) - c.v010iso * (c.v101iso - c.v001iso))
  else if edge = 9 then
    ((c.v101iso - c.v001iso) * (c.v110iso - c.v010iso) -
       (c.v100iso - c.v000iso) * (c.v111iso - c.v011iso),
     c.v010iso * (c.v101iso - c.v001iso) + c.v001iso * (c.v110iso - c.v010iso) -
       c.v011iso * (c.v100iso - c.v000iso) - c.v000iso * (c.v111iso - c.v011iso))
  else if edge = 10 then
    ((c.v111iso - c.v011iso) * (c.v100iso - c.v000iso) -
       (c.v101iso - c.v001iso) * (c.v110iso - c.v010iso),
     c.v000iso * (c.v111iso - c.v011iso) + c.v011iso * (c.v100iso - c.v000iso) -
       c.v010iso * (c.v101iso - c.v001iso) - c.v001iso * (c.v110iso - c.v010iso))
  else if edge = 11 then
    ((c.v110iso - c.v010iso) * (c.v101iso - c.v001iso) -
       (c.v111iso - c.v011iso) * (c.v100iso - c.v000iso),
     c.v001iso * (c.v110iso - c.v010iso) + c.v010iso * (c.v101iso - c.v001iso) -
       c.v000iso * (c.v111iso - c.v011iso) - c.v011iso * (c.v100iso - c.v000iso))
  else (0, 0)

/-- The bilinear face values `(At, Bt, Ct, Dt)` at parameter `t` of each
edge case of `ReadISurf::interior_ambiguity_verification` (source lines
1713-2036; in every case `At` is set to the fixed endpoint of the edge,
written there as the corresponding corner combination); `(0,0,0,0)` for an
edge outside `0..11`. -/
def iav_quad (c : Cube) (edge : ℤ) (t : ℚ) : ℚ × ℚ × ℚ × ℚ :=
  if edge = 0 then
    (c.v001iso + (c.v000iso - c.v001iso) * t, c.v101iso + (c.v100iso - c.v101iso) * t,
     c.v111iso + (c.v110iso - c.v111iso) * t, c.v011iso + (c.v010iso - c.v011iso) * t)
  else if edge = 1 then
    (c.v011iso + (c.v010iso - c.v011iso) * t, c.v001iso + (c.v000iso - c.v001iso) * t,
     c.v101iso + (c.v100iso - c.v101iso) * t, c.v111iso + (c.v110iso - c.v111iso) * t)
  else if edge = 2 then
    (c.v010iso + (c.v011iso - c.v010iso) * t, c.v110iso + (c.v111iso - c.v110iso) * t,
     c.v100iso + (c.v101iso - c.v100iso) * t, c.v000iso + (c.v001iso - c.v000iso) * t)
  else if edge = 3 then
    (c.v000iso + (c.v001iso - c.v000iso) * t, c.v010iso + (c.v011iso - c.v010iso) * t,
     c.v110iso + (c.v111iso - c.v110iso) * t, c.v100iso + (c.v101iso - c.v100iso) * t)
  else if edge = 4 then
    (c.v001iso + (c.v011iso - c.v001iso) * t, c.v000iso + (c.v010iso - c.v000iso) * t,
     c.v100iso + (c.v110iso - c.v100iso) * t, c.v101iso + (c.v111iso - c.v101iso) * t)
  else if edge = 5 then
    (c.v000iso + (c.v010iso - c.v000iso) * t, c.v001iso + (c.v011iso - c.v001iso) * t,
     c.v101iso + (c.v111iso - c.v101iso) * t, c.v100iso + (c.v110iso - c.v100iso) * t)
  else if edge = 6 then
    (c.v010iso + (c.v000iso - c.v010iso) * t, c.v110iso + (c.v100iso - c.v110iso) * t,
     c.v111iso + (c.v101iso - c.v111iso) * t, c.v011iso + (c.v001iso - c.v011iso) * t)
  else if edge = 7 then
    (c.v011iso + (c.v001iso - c.v011iso) * t, c.v010iso + (c.v000iso - c.v010iso) * t,
     c.v110iso + (c.v100iso - c.v110iso) * t, c.v111iso + (c.v101iso - c.v111iso) * t)
  else if edge = 8 then
    (c.v000iso + (c.v100iso - c.v000iso) * t, c.v010iso + (c.v110iso - c.v010iso) * t,
     c.v011iso + (c.v111iso - c.v011iso) * t, c.v001iso + (c.v101iso - c.v001iso) * t)
  else if edge = 9 then
    (c.v001iso + (c.v101iso - c.v001iso) * t, c.v000iso + (c.v100iso - c.v000iso) * t,
     c.v010iso + (c.v110iso - c.v010iso) * t, c.v011iso + (c.v111iso - c.v011iso) * t)
  else if edge = 10 then
    (c.v011iso + (c.v111iso - c.v011iso) * t, c.v001iso + (c.v101iso - c.v001iso) * t,
     c.v000iso + (c.v100iso - c.v000iso) * t, c.v010iso + (c.v110iso - c.v010iso) * t)
  else if edge = 11 then
    (c.v010iso + (c.v110iso - c.v010iso) * t, c.v011iso + (c.v111iso - c.v011iso) * t,
     c.v001iso + (c.v101iso - c.v001iso) * t, c.v000iso + (c.v100iso - c.v000iso) * t)
  else (0, 0, 0, 0)

/-- The quadratic-root parameter `t = -b / (2a)` of
`ReadISurf::interior_ambiguity_verification`. -/
def iavT (c : Cube) (edge : ℤ) : ℚ :=
  -(iav_ab c edge).2 / (2 * (iav_ab c edge).1)

/-- The value `verify = At*Ct - Bt*Dt` of
`ReadISurf::interior_ambiguity_verification`, evaluated at `t = -b/(2a)`. -/
def iavVerify (c : Cube) (edge : ℤ) : ℚ :=
  let q := iav_quad c edge (iavT c edge)
  q.1 * q.2.2.1 - q.2.1 * q.2.2.2

/-- `ReadISurf::interior_ambiguity_verification` (source lines 1713-2042).
Every edge case of the source repeats the same control flow around its own
`a`, `b`, `At..Dt` formulas (collected in `iav_ab` / `iav_quad`): return
`1` if `a > 0`, return `1` if `t = -b/(2a)` falls outside `[0,1]`,
otherwise return `0` if `verify = At*Ct - Bt*Dt` is positive and `1` if it
is negative; all remaining paths (`verify = 0`, and an edge outside
`0..11` which matches no `switch` case) fall through to the final
`return 1`. -/
def interior_ambiguity_verification (c : Cube) (edge : ℤ) : ℕ :=
  if 0 ≤ edge ∧ edge ≤ 11 then
    let a := (iav_ab c edge).1
    let b := (iav_ab c edge).2
    if 0 < a then 1
    else
      let t := -b / (2 * a)
      if t < 0 ∨ 1 < t then 1
      else
        let q := iav_quad c edge t
        let verify := q.1 * q.2.2.1 - q.2.1 * q.2.2.2
        if 0 < verify then 0 else if verify < 0 then 1 else 1
  else 1

/-- The vote total `inter_amb` of the `case 4` arm of
`ReadISurf::modified_test_interior` (source lines 1598-1613): the sum of
the edge verifications for the three ambiguous faces `1`, `2`, `5`. -/
def interAmbSum4 (c : Cube) (s : ℤ) : ℕ :=
  interior_ambiguity_verification c (interior_ambiguity c 1 s) +
    interior_ambiguity_verification c (interior_ambiguity c 2 s) +
    interior_ambiguity_verification c (interior_ambiguity c 5 s)

/-- The `case 4` arm of `ReadISurf::modified_test_interior` (source lines
1597-1613): `false` when `inter_amb == 0`, `true` otherwise. -/
def modified_test_interior_case4 (c : Cube) (s : ℤ) : Bool :=
  if interAmbSum4 c s = 0 then false else true

/-- The `case 4` dispatch of `ReadISurf::marching_cubes` (source lines
929-934): when the modified interior test returns true the cell is tiled
with `tiling4_1[config]` (2 triangles, case 4.1.1), otherwise with
`tiling4_2[config]` (6 triangles, case 4.1.2).  The returned value is the
emitted triangle count `nsurf`. -/
def mcCase4Nsurf (c : Cube) (s : ℤ) : ℕ :=
  if modified_test_interior_case4 c s then 2 else 6

/-- Modelled from the spec: the per-face vote of claim C2's reading of the
modified interior test ("a positive verify votes that the interior is
empty", the votes being summed afterwards).  This follows the spec's
words, for comparison with the source's `interior_ambiguity_verification`
return value. -/
def specInteriorVote (c : Cube) (e : ℤ) : ℕ :=
  if 0 < iavVerify c e then 1 else 0

/-- Modelled from the spec: the inter-face vote sum of claim C2's reading
of the modified interior test for case 4 (ambiguous faces `1`, `2`, `5`). -/
def specVoteSum4 (c : Cube) (s : ℤ) : ℕ :=
  specInteriorVote c (interior_ambiguity c 1 s) +
    specInteriorVote c (interior_ambiguity c 2 s) +
    specInteriorVote c (interior_ambiguity c 5 s)

/-- The marching-cubes case-4 sign pattern in its configuration with the
two inside corners on the main diagonal `v000`/`v111` (the 8-bit index
`which = 65`, `cases[65] = (4, 0)`). -/
def case4Pattern (c : Cube) : Prop :=
  0 < c.v000iso ∧ 0 < c.v111iso ∧
    c.v001iso < 0 ∧ c.v010iso < 0 ∧ c.v011iso < 0 ∧
    c.v100iso < 0 ∧ c.v101iso < 0 ∧ c.v110iso < 0

/-- A concrete case-4 cube: corner samples
`(v000,...,v111) = (205, 86, 16, 79, 90, 78, 123, 128)` at threshold
`127.5`, written as iso-values. -/
def mcCornerCube : Cube :=
  ⟨155 / 2, -83 / 2, -223 / 2, -97 / 2, -75 / 2, -99 / 2, -9 / 2, 1 / 2⟩

/-- One sign bit of the marching-squares / marching-cubes corner
classification: `v <= thresh ? 0 : 1` (source lines 646-649, 888-895). -/
def cornerBit (thresh : ℚ) (v : ℤ) : ℕ :=
  if (v : ℚ) ≤ thresh then 0 else 1

/-- One 3-D grid cell as seen by `ReadISurf::marching_cubes` and
`ReadISurf::add_triangle`: the eight raw corner samples, the threshold and
the cell bounds `lo[3]`, `hi[3]` (source lines 852-884). -/
structure MCCell where
  thresh : ℚ
  v000 : ℤ
  v001 : ℤ
  v010 : ℤ
  v011 : ℤ
  v100 : ℤ
  v101 : ℤ
  v110 : ℤ
  v111 : ℤ
  lo0 : ℚ
  lo1 : ℚ
  lo2 : ℚ
  hi0 : ℚ
  hi1 : ℚ
  hi2 : ℚ
deriving DecidableEq, Repr

/-- The eight Lewiner-ordered sign bits of `ReadISurf::marching_cubes`
(source lines 888-895): bits 2/3 and 6/7 are swapped relative to the
storage order (`bit2` reads `v011`, `bit3` reads `v010`, `bit6` reads
`v111`, `bit7` reads `v110`). -/
def MCCell.bit0 (c : MCCell) : Bool := if (c.v000 : ℚ) ≤ c.thresh then false else true

/-- Sign bit 1 (`v001`), see `MCCell.bit0`. -/
def MCCell.bit1 (c : MCCell) : Bool := if (c.v001 : ℚ) ≤ c.thresh then false else true

/-- Sign bit 2 (`v011`), see `MCCell.bit0`. -/
def MCCell.bit2 (c : MCCell) : Bool := if (c.v011 : ℚ) ≤ c.thresh then false else true

/-- Sign bit 3 (`v010`), see `MCCell.bit0`. -/
def MCCell.bit3 (c : MCCell) : Bool := if (c.v010 : ℚ) ≤ c.thresh then false else true

/-- Sign bit 4 (`v100`), see `MCCell.bit0`. -/
def MCCell.bit4 (c : MCCell) : Bool := if (c.v100 : ℚ) ≤ c.thresh then false else true

/-- Sign bit 5 (`v101`), see `MCCell.bit0`. -/
def MCCell.bit5 (c : MCCell) : Bool := if (c.v101 : ℚ) ≤ c.thresh then false else true

/-- Sign bit 6 (`v111`), see `MCCell.bit0`. -/
def MCCell.bit6 (c : MCCell) : Bool := if (c.v111 : ℚ) ≤ c.thresh then false else true

/-- Sign bit 7 (`v110`), see `MCCell.bit0`. -/
def MCCell.bit7 (c : MCCell) : Bool := if (c.v110 : ℚ) ≤ c.thresh then false else true

/-- The candidate crossing points of the virtual edge 12 of
`ReadISurf::add_triangle` (source lines 1265-1345, `case 12`): the twelve
cube edges in source order, each paired with the XOR of its two endpoint
sign bits and its interpolated threshold crossing.  The point expressions
are identical to those of the corresponding edge cases `0..11` of the
same `switch`. -/
def crossCandidates (c : MCCell) : List (Bool × Vec3) :=
  [(xor c.bit0 c.bit1, ⟨interpolate c.thresh c.v000 c.v001 c.lo0 c.hi0, c.lo1, c.lo2⟩),
   (xor c.bit1 c.bit2, ⟨c.hi0, interpolate c.thresh c.v001 c.v011 c.lo1 c.hi1, c.lo2⟩),
   (xor c.bit2 c.bit3, ⟨interpolate c.thresh c.v010 c.v011 c.lo0 c.hi0, c.hi1, c.lo2⟩),
   (xor c.bit3 c.bit0, ⟨c.lo0, interpolate c.thresh c.v000 c.v010 c.lo1 c.hi1, c.lo2⟩),
   (xor c.bit4 c.bit5, ⟨interpolate c.thresh c.v100 c.v101 c.lo0 c.hi0, c.lo1, c.hi2⟩),
   (xor c.bit5 c.bit6, ⟨c.hi0, interpolate c.thresh c.v101 c.v111 c.lo1 c.hi1, c.hi2⟩),
   (xor c.bit6 c.bit7, ⟨interpolate c.thresh c.v110 c.v111 c.lo0 c.hi0, c.hi1, c.hi2⟩),
   (xor c.bit7 c.bit4, ⟨c.lo0, interpolate c.thresh c.v100 c.v110 c.lo1 c.hi1, c.hi2⟩),
   (xor c.bit0 c.bit4, ⟨c.lo0, c.lo1, interpolate c.thresh c.v000 c.v100 c.lo2 c.hi2⟩),
   (xor c.bit1 c.bit5, ⟨c.hi0, c.lo1, interpolate c.thresh c.v001 c.v101 c.lo2 c.hi2⟩),
   (xor c.bit2 c.bit6, ⟨c.hi0, c.hi1, interpolate c.thresh c.v011 c.v111 c.lo2 c.hi2⟩),
   (xor c.bit3 c.bit7, ⟨c.lo0, c.hi1, interpolate c.thresh c.v010 c.v110 c.lo2 c.hi2⟩)]

/-- The accumulation loop of `case 12` of `ReadISurf::add_triangle`
(source lines 1265-1343): the count `u` of crossing edges together with
the coordinatewise sums over the crossing edges, taken in source order. -/
def edge12Accum (c : MCCell) : ℕ × ℚ × ℚ × ℚ :=
  (crossCandidates c).foldl
    (fun acc p =>
      if p.1 then (acc.1 + 1, acc.2.1 + p.2.x, acc.2.2.1 + p.2.y, acc.2.2.2 + p.2.z)
      else acc)
    (0, 0, 0, 0)

/-- The point emitted by `ReadISurf::add_triangle` for one tile edge index
(source lines 1201-1349): edges `0..11` are interpolated threshold
crossings on the cell edges; edge `12` is the accumulated case-12 point
divided by the crossing count `u`.  For any other index the source's
`switch` leaves the output slot unwritten (stale memory, unreachable from
the Lewiner tables); we return the origin. -/
def tilePoint (c : MCCell) (e : ℤ) : Vec3 :=
  if e = 0 then ⟨interpolate c.thresh c.v000 c.v001 c.lo0 c.hi0, c.lo1, c.lo2⟩
  else if e = 1 then ⟨c.hi0, interpolate c.thresh c.v001 c.v011 c.lo1 c.hi1, c.lo2⟩
  else if e = 2 then ⟨interpolate c.thresh c.v010 c.v011 c.lo0 c.hi0, c.hi1, c.lo2⟩
  else if e = 3 then ⟨c.lo0, interpolate c.thresh c.v000 c.v010 c.lo1 c.hi1, c.lo2⟩
  else if e = 4 then ⟨interpolate c.thresh c.v100 c.v101 c.lo0 c.hi0, c.lo1, c.hi2⟩
  else if e = 5 then ⟨c.hi0, interpolate c.thresh c.v101 c.v111 c.lo1 c.hi1, c.hi2⟩
  else if e = 6 then ⟨interpolate c.thresh c.v110 c.v111 c.lo0 c.hi0, c.hi1, c.hi2⟩
  else if e = 7 then ⟨c.lo0, interpolate c.thresh c.v100 c.v110 c.lo1 c.hi1, c.hi2⟩
  else if e = 8 then ⟨c.lo0, c.lo1, interpolate c.thresh c.v000 c.v100 c.lo2 c.hi2⟩
  else if e = 9 then ⟨c.hi0, c.lo1, interpolate c.thresh c.v001 c.v101 c.lo2 c.hi2⟩
  else if e = 10 then ⟨c.hi0, c.hi1, interpolate c.thresh c.v011 c.v111 c.lo2 c.hi2⟩
  else if e = 11 then ⟨c.lo0, c.hi1, interpolate c.thresh c.v010 c.v110 c.lo2 c.hi2⟩
  else if e = 12 then
    let acc := edge12Accum c
    ⟨acc.2.1 / (acc.1 : ℚ), acc.2.2.1 / (acc.1 : ℚ), acc.2.2.2 / (acc.1 : ℚ)⟩
  else ⟨0, 0, 0⟩

/-- Following the spec's words for claim C9: the list of interpolated
threshold crossings over exactly those cube edges whose two endpoint sign
bits differ. -/
def crossingPoints (c : MCCell) : List Vec3 :=
  ((crossCandidates c).filter (fun p => p.1)).map (fun p => p.2)

/-- Following the spec's words for claim C9: the coordinatewise arithmetic
mean of a list of points. -/
def meanPoint (l : List Vec3) : Vec3 :=
  ⟨(l.map Vec3.x).sum / (l.length : ℚ),
   (l.map Vec3.y).sum / (l.length : ℚ),
   (l.map Vec3.z).sum / (l.length : ℚ)⟩

/-- The fatal error raised by corner ingestion when a boundary sample is
non-zero ("Grid boundary value != 0", source line 475). -/
inductive IngestError where
  | BoundaryNotZero
deriving DecidableEq, Repr

/-- The boundary test applied to one corner sample by
`ReadISurf::assign_corners` (source lines 464-476): decompose the linear
point index into lattice coordinates `pix, piy, piz` (x fastest) and raise
`zeroflag` when the sample is non-zero and any coordinate sits on the
outer boundary (the `z` test only in 3-D). -/
def boundaryZeroViolation (dim nx ny nz : ℕ) (pointindex : ℕ) (val : ℕ) : Bool :=
  let pix := pointindex % (nx + 1)
  let piy := (pointindex / (nx + 1)) % (ny + 1)
  let piz := pointindex / ((nx + 1) * (ny + 1))
  if val ≠ 0 then
    decide ((pix = 0 ∨ piy = 0) ∨ (pix = nx ∨ piy = ny) ∨
      (dim = 3 ∧ (piz = 0 ∨ piz = nz)))
  else false

/-- The error behaviour of `ReadISurf::assign_corners` over one broadcast
chunk (source lines 458-519): samples are checked in order starting at
linear index `offset`; the first boundary violation aborts with
`BoundaryNotZero` (`error->all`), otherwise the chunk is ingested. -/
def assign_corners_check (dim nx ny nz : ℕ) : ℕ → List ℕ → Except IngestError Unit
  | _, [] => Except.ok ()
  | offset, v :: rest =>
    if boundaryZeroViolation dim nx ny nz offset v then
      Except.error IngestError.BoundaryNotZero
    else assign_corners_check dim nx ny nz (offset + 1) rest

/-- Following the claim's words for C6: a corner sample whose value is
non-zero and whose lattice coordinates lie on the outer boundary of the
global lattice (x index `0` or `nx`, y index `0` or `ny`, and in 3-D
z index `0` or `nz`). -/
def boundarySample (dim nx ny nz : ℕ) (idx val : ℕ) : Prop :=
  val ≠ 0 ∧
    (idx % (nx + 1) = 0 ∨ idx % (nx + 1) = nx ∨
     (idx / (nx + 1)) % (ny + 1) = 0 ∨ (idx / (nx + 1)) % (ny + 1) = ny ∨
     (dim = 3 ∧ (idx / ((nx + 1) * (ny + 1)) = 0 ∨ idx / ((nx + 1) * (ny + 1)) = nz)))

/-- `p` lies on one of the twelve edges of the bounding box of cell `c`:
two of its coordinates sit on opposite bound planes and the third lies
between the bounds. -/
def OnBoxEdge (c : MCCell) (p : Vec3) : Prop :=
  ((p.y = c.lo1 ∨ p.y = c.hi1) ∧ (p.z = c.lo2 ∨ p.z = c.hi2) ∧
     c.lo0 ≤ p.x ∧ p.x ≤ c.hi0) ∨
  ((p.x = c.lo0 ∨ p.x = c.hi0) ∧ (p.z = c.lo2 ∨ p.z = c.hi2) ∧
     c.lo1 ≤ p.y ∧ p.y ≤ c.hi1) ∨
  ((p.x = c.lo0 ∨ p.x = c.hi0) ∧ (p.y = c.lo1 ∨ p.y = c.hi1) ∧
     c.lo2 ≤ p.z ∧ p.z ≤ c.hi2)

/-- Modelled from the spec: one implicit-surface triangle of the
per-process store (`Surf::Tri`; `surf.h` is not part of the repository
snapshot).  The spec's data model gives each primitive an owning cell ID,
a material label, optional group-mask bits, three corner points and a
normal. -/
structure Tri where
  id : ℤ
  ttype : ℤ
  mask : ℤ
  p1 : Vec3
  p2 : Vec3
  p3 : Vec3
  norm : Vec3
deriving DecidableEq, Repr

instance : Inhabited Tri := ⟨⟨0, 0, 0, default, default, default, default⟩⟩

/-- One grid cell as used by `cleanup_MC`: its ID, bounds and the list
`csurfs` of indices of its triangles in the per-process store. -/
structure GCell where
  id : ℤ
  lo : Vec3
  hi : Vec3
  csurfs : List ℕ
deriving DecidableEq, Repr

instance : Inhabited GCell := ⟨⟨0, default, default, []⟩⟩

/-- The per-process state mutated by `ReadISurf::cleanup_MC`: the triangle
store `Surf::tris`, the cells with their surface lists, and the deferred
deletion list `dellist`. -/
structure MCState where
  tris : List Tri
  cells : List GCell
  dellist : List ℕ
deriving DecidableEq, Repr

/-- Cell lookup `cells[icell]` (out-of-range reads, which the source never
performs, return the default cell). -/
def MCState.cell (st : MCState) (icell : ℕ) : GCell :=
  st.cells.getD icell default

/-- Triangle lookup `tris[m]`. -/
def MCState.tri (st : MCState) (m : ℕ) : Tri :=
  st.tris.getD m default

/-- Modelled from the spec: `Geometry::tri_on_hex_face` (`geometry.h` is
not part of the repository snapshot).  The spec describes "a
face-classifier that reports whether a triangle lies entirely on a
specific cube face", a face-coplanar triangle being one "whose three
vertices all lie on one face of a cube".  Faces are indexed
`XLO,XHI,YLO,YHI,ZLO,ZHI = 0..5` as in the source's enum, and `none`
plays the role of the source's negative return. -/
def tri_on_hex_face (p1 p2 p3 lo hi : Vec3) : Option ℕ :=
  if p1.x = lo.x ∧ p2.x = lo.x ∧ p3.x = lo.x then some 0
  else if p1.x = hi.x ∧ p2.x = hi.x ∧ p3.x = hi.x then some 1
  else if p1.y = lo.y ∧ p2.y = lo.y ∧ p3.y = lo.y then some 2
  else if p1.y = hi.y ∧ p2.y = hi.y ∧ p3.y = hi.y then some 3
  else if p1.z = lo.z ∧ p2.z = lo.z ∧ p3.z = lo.z then some 4
  else if p1.z = hi.z ∧ p2.z = hi.z ∧ p3.z = hi.z then some 5
  else none

/-- The triangles of `icell` lying on its face `iface`, in `csurfs` order
(the tally loop of `cleanup_MC`, source lines 2155-2173). -/
def faceTris (st : MCState) (icell iface : ℕ) : List ℕ :=
  (st.cell icell).csurfs.filter (fun m =>
    tri_on_hex_face (st.tri m).p1 (st.tri m).p2 (st.tri m).p3
      (st.cell icell).lo (st.cell icell).hi = some iface)

/-- `nfacetri[icell][iface]`: the number of triangles of `icell` on its
face `iface` (source lines 2166-2173). -/
def nfacetri (st : MCState) (icell iface : ℕ) : ℕ :=
  (faceTris st icell iface).length

/-- `facetris[icell][iface]`: the first two triangles recorded for the
face (source lines 2170-2171). -/
def facetriPair (st : MCState) (icell iface : ℕ) : List ℕ :=
  (faceTris st icell iface).take 2

/-- The inward-normal test of `cleanup_MC` (source lines 2224-2228 and
2433-2437): with `idim = iface/2`, a triangle normal points into the cell
when it is negative on a high face (`iface` odd) and positive on a low
face (`iface` even). -/
def inwardnorm (norm : Vec3) (iface : ℕ) : Bool :=
  let idim := iface / 2
  if iface % 2 = 1 then decide (norm.coord idim < 0)
  else decide (0 < norm.coord idim)

/-- The matching face index of the adjacent cell (source lines
2229-2230): `iface-1` for a high face, `iface+1` for a low face. -/
def otherFace (iface : ℕ) : ℕ :=
  if iface % 2 = 1 then iface - 1 else iface + 1

/-- The fatal error of the pre-cleanup pairing check ("Some cell faces do
not have zero or 2 triangles", source line 2187). -/
inductive CleanupError where
  | NonPairedFace
deriving DecidableEq, Repr

/-- The number of faces of one process whose triangle count is neither 0
nor 2 (the `flag` accumulation of source lines 2178-2182). -/
def nonPairedCount (st : MCState) : ℕ :=
  ((List.range st.cells.length).map (fun icell =>
    ((List.range 6).map (fun iface =>
      if nfacetri st icell iface ≠ 0 ∧ nfacetri st icell iface ≠ 2 then 1
      else 0)).sum)).sum

/-- The pre-cleanup pairing check of `cleanup_MC` (source lines
2176-2187): the per-process violation counts are summed across all
processes (`MPI_Allreduce`) and a non-zero global sum aborts every
process with `NonPairedFace`. -/
def pairingCheck (procs : List MCState) : Except CleanupError Unit :=
  if (procs.map nonPairedCount).sum ≠ 0 then
    Except.error CleanupError.NonPairedFace
  else Except.ok ()

/-- Removal of one entry from a cell's `csurfs` list as `cleanup_MC` does
it (for example source lines 2290-2296): find the first position `k`
holding `m`, move the last entry into position `k` and shrink the list by
one.  A missing entry (the source aborts with "Could not find surf in
cleanup_MC") leaves the list unchanged here; the cleanup theorems only
use the function under a membership hypothesis. -/
def removeSwap : List ℕ → ℕ → List ℕ
  | [], _ => []
  | a :: l, m =>
    if a = m then
      match l with
      | [] => []
      | b :: l' => (b :: l').getLast (List.cons_ne_nil b l') :: (b :: l').dropLast
    else a :: removeSwap l m

/-- Replace the `csurfs` list of cell `i` by `f` applied to it. -/
def updCsurfs (st : MCState) (i : ℕ) (f : List ℕ → List ℕ) : MCState :=
  { st with cells := st.cells.set i { st.cell i with csurfs := f (st.cell i).csurfs } }

/-- Retag the owning cell ID of triangle `m` (for example
`tris[...].id = cells[othercell].id`, source lines 2258-2259). -/
def setTriId (st : MCState) (m : ℕ) (cid : ℤ) : MCState :=
  { st with tris := st.tris.set m { st.tri m with id := cid } }

/-- The same-process reconciliation step of `cleanup_MC` for one cell
face holding two triangles (source lines 2238-2317, the
`otherproc == me` branch).  `t1, t2` are `facetris[icell][iface][0..1]`.
With `ntri_other = nfacetri[othercell][otherface]`:
if `ntri_other = 0` and the pair's normal is inward to `icell`, nothing
happens (`icell` keeps the pair); if `ntri_other = 0` otherwise, the two
triangle indices are appended to `othercell`'s list and their IDs
retagged to `othercell`, then removed from `icell`'s list; if
`ntri_other = 2`, both cells' pairs are removed from their lists and all
four indices are queued on `dellist` (the source also zeroes
`nfacetri[othercell][otherface]` so the loop does not process the face
again from the other side). -/
def sameProcStep (st : MCState) (icell othercell iface : ℕ) : MCState :=
  match facetriPair st icell iface with
  | [t1, t2] =>
    let inward := inwardnorm (st.tri t1).norm iface
    let ntri_other := nfacetri st othercell (otherFace iface)
    if ntri_other = 0 ∧ inward = true then st
    else
      let oPair := facetriPair st othercell (otherFace iface)
      let o1 := oPair.getD 0 0
      let o2 := oPair.getD 1 0
      let st1 :=
        if ntri_other = 0 then
          setTriId
            (setTriId (updCsurfs st othercell (fun l => l ++ [t1, t2]))
              t1 (st.cell othercell).id)
            t2 (st.cell othercell).id
        else st
      let st2 :=
        if ntri_other = 2 then
          updCsurfs st1 othercell (fun l => removeSwap (removeSwap l o1) o2)
        else st1
      let st3 := updCsurfs st2 icell (fun l => removeSwap (removeSwap l t1) t2)
      if ntri_other = 2 then
        { st3 with dellist := st3.dellist ++ [t1, t2, o1, o2] }
      else st3
  | _ => st

/-- One record of the cross-process exchange (`struct SendDatum` of
`read_isurf.h`, filled at source lines 2333-2342): the sender's
cell/face, the receiver's cell/face, the sender's `inwardnorm` flag and
copies of the two triangles. -/
structure SendDatum where
  sendcell : ℕ
  sendface : ℕ
  othercell : ℕ
  otherface : ℕ
  inwardnorm : Bool
  tri1 : Tri
  tri2 : Tri
deriving DecidableEq, Repr

/-- The sender side of the cross-process pass of `cleanup_MC` for one
cell face holding two triangles whose neighbour cell belongs to another
process (source lines 2323-2372): build the send record (with triangle
copies taken now), and, exactly when the pair's normal is not inward to
the sender, delete the pair from the sender's cell and queue it on
`dellist`. -/
def sendStep (st : MCState) (icell otherlocal iface : ℕ) : SendDatum × MCState :=
  match facetriPair st icell iface with
  | [t1, t2] =>
    let inward := inwardnorm (st.tri t1).norm iface
    let d : SendDatum :=
      ⟨icell, iface, otherlocal, otherFace iface, inward, st.tri t1, st.tri t2⟩
    if inward then (d, st)
    else
      (d, { updCsurfs st icell (fun l => removeSwap (removeSwap l t1) t2) with
              dellist := st.dellist ++ [t1, t2] })
  | _ => (⟨icell, iface, otherlocal, otherFace iface, false, default, default⟩, st)

/-- First triangle of the concrete cleanup witness state: it lies on the
face `x = 1` of the unit cell, with normal `+x`. -/
def wTri1 : Tri := ⟨10, 1, 0, ⟨1, 0, 0⟩, ⟨1, 1, 0⟩, ⟨1, 0, 1⟩, ⟨1, 0, 0⟩⟩

/-- Second triangle of the concrete cleanup witness state. -/
def wTri2 : Tri := ⟨10, 1, 0, ⟨1, 1, 1⟩, ⟨1, 0, 0⟩, ⟨1, 1, 0⟩, ⟨1, 0, 0⟩⟩

/-- A concrete two-cell cleanup state: cell 0 is `[0,1]^3` (ID 10) and
holds the two face triangles on its `XHI` face `x = 1`; cell 1 is
`[1,2]x[0,1]x[0,1]` (ID 20) with no triangles. -/
def wState : MCState :=
  { tris := [wTri1, wTri2],
    cells := [⟨10, ⟨0, 0, 0⟩, ⟨1, 1, 1⟩, [0, 1]⟩, ⟨20, ⟨1, 0, 0⟩, ⟨2, 1, 1⟩, []⟩],
    dellist := [] }

/-- A concrete received exchange record matching `wState`'s cell 1, whose
sender's normal was not inward to the sender. -/
def wDatum : SendDatum := ⟨0, 1, 1, 0, false, wTri1, wTri2⟩

/-- The receiver side of the cross-process pass of `cleanup_MC` for one
received record (source lines 2394-2463).  `tally` is the receiver's
phase-1 count `nfacetri[icell][iface]` for the matching face and `pair`
its recorded `facetris` indices.  With `tally = 0`: if the sender's
normal was inward to the sender nothing happens, otherwise the two
received triangles are appended to the local store with their owning cell
ID retagged to the local cell, and spliced into the cell's surface list.
With `tally = 2`: if the local pair's normal is inward locally it is
removed and queued on `dellist` (the sender deletes its own copy),
otherwise nothing happens. -/
def recvStep (st : MCState) (d : SendDatum) (tally : ℕ) (pair : List ℕ) : MCState :=
  let icell := d.othercell
  let iface := d.otherface
  if tally = 0 ∧ d.inwardnorm = true then st
  else
    let st1 :=
      if tally = 0 then
        let nslocal := st.tris.length
        let cid := (st.cell icell).id
        let st' := { st with
          tris := st.tris ++ [{ d.tri1 with id := cid }, { d.tri2 with id := cid }] }
        updCsurfs st' icell (fun l => l ++ [nslocal, nslocal + 1])
      else st
    if tally = 2 then
      match pair with
      | [m1, m2] =>
        if inwardnorm (st.tri m1).norm iface = true then
          { updCsurfs st1 icell (fun l => removeSwap (removeSwap l m1) m2) with
              dellist := st1.dellist ++ [m1, m2] }
        else st1
      | _ => st1
    else st1

/-- The 4-bit marching-squares case index `which` (source lines 646-651).
Bits 2 and 3 are swapped relative to the storage order of the corner
values (`bit2` comes from `v11`, `bit3` from `v10`), as in the source. -/
def msWhich (thresh : ℚ) (v00 v01 v10 v11 : ℤ) : ℕ :=
  8 * cornerBit thresh v10 + 4 * cornerBit thresh v11 +
    2 * cornerBit thresh v01 + cornerBit thresh v00

/-- The cell-centre average `ave = 0.25 * (v00 + v01 + v10 + v11)` used by
the two saddle cases of `ReadISurf::marching_squares` (source lines 694, 751). -/
def msAve (v00 v01 v10 v11 : ℤ) : ℚ :=
  (1 / 4 : ℚ) * (((v00 + v01 + v10 + v11 : ℤ) : ℚ))

/-- The per-cell body of `ReadISurf::marching_squares` (source lines
614-833): the list of emitted line segments for one grid cell, each an
ordered pair of points (`z = 0`).  The 16-way `switch` on `which`, the
segment endpoints and their order are transcribed case by case. -/
def marching_squares_cell (thresh : ℚ) (v00 v01 v10 v11 : ℤ)
    (lo0 lo1 hi0 hi1 : ℚ) : List (Vec3 × Vec3) :=
  match msWhich thresh v00 v01 v10 v11 with
  | 0 => []
  | 1 => [(⟨lo0, interpolate thresh v00 v10 lo1 hi1, 0⟩,
           ⟨interpolate thresh v00 v01 lo0 hi0, lo1, 0⟩)]
  | 2 => [(⟨interpolate thresh v00 v01 lo0 hi0, lo1, 0⟩,
           ⟨hi0, interpolate thresh v01 v11 lo1 hi1, 0⟩)]
  | 3 => [(⟨lo0, interpolate thresh v00 v10 lo1 hi1, 0⟩,
           ⟨hi0, interpolate thresh v01 v11 lo1 hi1, 0⟩)]
  | 4 => [(⟨hi0, interpolate thresh v01 v11 lo1 hi1, 0⟩,
           ⟨interpolate thresh v10 v11 lo0 hi0, hi1, 0⟩)]
  | 5 =>
    if thresh < msAve v00 v01 v10 v11 then
      [(⟨lo0, interpolate thresh v00 v10 lo1 hi1, 0⟩,
        ⟨interpolate thresh v10 v11 lo0 hi0, hi1, 0⟩),
       (⟨hi0, interpolate thresh v01 v11 lo1 hi1, 0⟩,
        ⟨interpolate thresh v00 v01 lo0 hi0, lo1, 0⟩)]
    else
      [(⟨lo0, interpolate thresh v00 v10 lo1 hi1, 0⟩,
        ⟨interpolate thresh v00 v01 lo0 hi0, lo1, 0⟩),
       (⟨hi0, interpolate thresh v01 v11 lo1 hi1, 0⟩,
        ⟨interpolate thresh v10 v11 lo0 hi0, hi1, 0⟩)]
  | 6 => [(⟨interpolate thresh v00 v01 lo0 hi0, lo1, 0⟩,
           ⟨interpolate thresh v10 v11 lo0 hi0, hi1, 0⟩)]
  | 7 => [(⟨lo0, interpolate thresh v00 v10 lo1 hi1, 0⟩,
           ⟨interpolate thresh v10 v11 lo0 hi0, hi1, 0⟩)]
  | 8 => [(⟨interpolate thresh v10 v11 lo0 hi0, hi1, 0⟩,
           ⟨lo0, interpolate thresh v00 v10 lo1 hi1, 0⟩)]
  | 9 => [(⟨interpolate thresh v10 v11 lo0 hi0, hi1, 0⟩,
           ⟨interpolate thresh v00 v01 lo0 hi0, lo1, 0⟩)]
  | 10 =>
    if thresh < msAve v00 v01 v10 v11 then
      [(⟨interpolate thresh v00 v01 lo0 hi0, lo1, 0⟩,
        ⟨lo0, interpolate thresh v00 v10 lo1 hi1, 0⟩),
       (⟨interpolate thresh v10 v11 lo0 hi0, hi1, 0⟩,
        ⟨hi0, interpolate thresh v01 v11 lo1 hi1, 0⟩)]
    else
      [(⟨interpolate thresh v10 v11 lo0 hi0, hi1, 0⟩,
        ⟨lo0, interpolate thresh v00 v10 lo1 hi1, 0⟩),
       (⟨interpolate thresh v00 v01 lo0 hi0, lo1, 0⟩,
        ⟨hi0, interpolate thresh v01 v11 lo1 hi1, 0⟩)]
  | 11 => [(⟨interpolate thresh v10 v11 lo0 hi0, hi1, 0⟩,
            ⟨hi0, interpolate thresh v01 v11 lo1 hi1, 0⟩)]
  | 12 => [(⟨hi0, interpolate thresh v01 v11 lo1 hi1, 0⟩,
            ⟨lo0, interpolate thresh v00 v10 lo1 hi1, 0⟩)]
  | 13 => [(⟨hi0, interpolate thresh v01 v11 lo1 hi1, 0⟩,
            ⟨interpolate thresh v00 v01 lo0 hi0, lo1, 0⟩)]
  | 14 => [(⟨interpolate thresh v00 v01 lo0 hi0, lo1, 0⟩,
            ⟨lo0, interpolate thresh v00 v10 lo1 hi1, 0⟩)]
  | _ => []

end Sparta

namespace Sparta

/-- The clamped interpolation stays below the upper edge coordinate. -/
theorem interpolate_le_hi (thresh : ℚ) (v0 v1 : ℤ) (lo hi : ℚ) :
    interpolate thresh v0 v1 lo hi ≤ hi := by
  simp only [interpolate]
  exact min_le_right _ _

/-- The clamped interpolation stays above the lower edge coordinate. -/
theorem lo_le_interpolate (thresh : ℚ) (v0 v1 : ℤ) (lo hi : ℚ)
    (h : lo ≤ hi) : lo ≤ interpolate thresh v0 v1 lo hi := by
  simp only [interpolate]
  exact le_min (le_max_right _ _) h

/-- C8.  `interpolate` returns the linear formula
`lo + (hi-lo)*(t - v0)/(v1 - v0)` clamped to `[lo, hi]` (for lattice edges
`lo ≤ hi`), and in particular its result always lies in `[lo, hi]`. -/
theorem claim_C8 (thresh : ℚ) (v0 v1 : ℤ) (lo hi : ℚ) (h : lo ≤ hi) :
    interpolate thresh v0 v1 lo hi =
      clampToInterval lo hi
        (lo + (hi - lo) * (thresh - (v0 : ℚ)) / ((v1 : ℚ) - (v0 : ℚ))) ∧
    lo ≤ interpolate thresh v0 v1 lo hi ∧
    interpolate thresh v0 v1 lo hi ≤ hi := by
  refine ⟨?_, lo_le_interpolate _ _ _ _ _ h, interpolate_le_hi _ _ _ _ _⟩
  simp only [interpolate, clampToInterval]
  set r := lo + (hi - lo) * (thresh - (v0 : ℚ)) / ((v1 : ℚ) - (v0 : ℚ)) with hr
  rcases lt_or_le r lo with h1 | h1
  · rw [if_pos h1, max_eq_right h1.le, min_eq_left h]
  · rw [if_neg (not_lt.mpr h1), max_eq_left h1]
    rcases lt_or_le hi r with h2 | h2
    · rw [if_pos h2, min_eq_right h2.le]
    · rw [if_neg (not_lt.mpr h2), min_eq_left h2]

/-- Witness for C8 at a concrete edge: `v0 = 200`, `v1 = 0`,
`lo = 0`, `hi = 1`, threshold `127.5`. -/
theorem claim_C8_witness :
    (0 : ℚ) ≤ 1 ∧
    (interpolate (255 / 2) 200 0 0 1 =
      clampToInterval 0 1
        (0 + (1 - 0) * (255 / 2 - ((200 : ℤ) : ℚ)) / (((0 : ℤ) : ℚ) - ((200 : ℤ) : ℚ))) ∧
    (0 : ℚ) ≤ interpolate (255 / 2) 200 0 0 1 ∧
    interpolate (255 / 2) 200 0 0 1 ≤ 1) :=
  ⟨by norm_num, claim_C8 (255 / 2) 200 0 0 1 (by norm_num)⟩

/-- C5.  Marching squares emits exactly two segments precisely for the two
saddle indices `which = 5` and `which = 10`; in those cases it computes
`ave = (v00+v01+v10+v11)/4` and, when `ave` is strictly greater than the
threshold, emits the crossing pair of segments (the central inside region
is connected, `splitflag` branch of the source), otherwise the
non-crossing pair. -/
theorem claim_C5 (thresh : ℚ) (v00 v01 v10 v11 : ℤ) (lo0 lo1 hi0 hi1 : ℚ) :
    ((marching_squares_cell thresh v00 v01 v10 v11 lo0 lo1 hi0 hi1).length = 2 ↔
      (msWhich thresh v00 v01 v10 v11 = 5 ∨ msWhich thresh v00 v01 v10 v11 = 10)) ∧
    (msWhich thresh v00 v01 v10 v11 = 5 →
      marching_squares_cell thresh v00 v01 v10 v11 lo0 lo1 hi0 hi1 =
        if thresh < msAve v00 v01 v10 v11 then
          [(⟨lo0, interpolate thresh v00 v10 lo1 hi1, 0⟩,
            ⟨interpolate thresh v10 v11 lo0 hi0, hi1, 0⟩),
           (⟨hi0, interpolate thresh v01 v11 lo1 hi1, 0⟩,
            ⟨interpolate thresh v00 v01 lo0 hi0, lo1, 0⟩)]
        else
          [(⟨lo0, interpolate thresh v00 v10 lo1 hi1, 0⟩,
            ⟨interpolate thresh v00 v01 lo0 hi0, lo1, 0⟩),
           (⟨hi0, interpolate thresh v01 v11 lo1 hi1, 0⟩,
            ⟨interpolate thresh v10 v11 lo0 hi0, hi1, 0⟩)]) ∧
    (msWhich thresh v00 v01 v10 v11 = 10 →
      marching_squares_cell thresh v00 v01 v10 v11 lo0 lo1 hi0 hi1 =
        if thresh < msAve v00 v01 v10 v11 then
          [(⟨interpolate thresh v00 v01 lo0 hi0, lo1, 0⟩,
            ⟨lo0, interpolate thresh v00 v10 lo1 hi1, 0⟩),
           (⟨interpolate thresh v10 v11 lo0 hi0, hi1, 0⟩,
            ⟨hi0, interpolate thresh v01 v11 lo1 hi1, 0⟩)]
        else
          [(⟨interpolate thresh v10 v11 lo0 hi0, hi1, 0⟩,
            ⟨lo0, interpolate thresh v00 v10 lo1 hi1, 0⟩),
           (⟨interpolate thresh v00 v01 lo0 hi0, lo1, 0⟩,
            ⟨hi0, interpolate thresh v01 v11 lo1 hi1, 0⟩)]) := by
  by_cases h0 : (v00 : ℚ) ≤ thresh <;> by_cases h1 : (v01 : ℚ) ≤ thresh <;>
    by_cases h2 : (v11 : ℚ) ≤ thresh <;> by_cases h3 : (v10 : ℚ) ≤ thresh <;>
    simp only [marching_squares_cell, msWhich, cornerBit, h0, h1, h2, h3,
      if_true, if_false, ite_true, ite_false] <;>
    norm_num <;> split_ifs <;> simp

/-- Witness for C5: the saddle pattern `which = 5` (corners `200,0,0,200`
at threshold `127.5`, unit cell) whose average `100` is below the
threshold, yielding the non-crossing pair. -/
theorem claim_C5_witness :
    msWhich (255 / 2) 200 0 0 200 = 5 ∧
    marching_squares_cell (255 / 2) 200 0 0 200 0 0 1 1 =
      if (255 / 2 : ℚ) < msAve 200 0 0 200 then
        [(⟨0, interpolate (255 / 2) 200 0 0 1, 0⟩,
          ⟨interpolate (255 / 2) 0 200 0 1, 1, 0⟩),
         (⟨1, interpolate (255 / 2) 0 200 0 1, 0⟩,
          ⟨interpolate (255 / 2) 200 0 0 1, 0, 0⟩)]
      else
        [(⟨0, interpolate (255 / 2) 200 0 0 1, 0⟩,
          ⟨interpolate (255 / 2) 200 0 0 1, 0, 0⟩),
         (⟨1, interpolate (255 / 2) 0 200 0 1, 0⟩,
          ⟨interpolate (255 / 2) 0 200 0 1, 1, 0⟩)] :=
  ⟨by norm_num [msWhich, cornerBit],
   (claim_C5 (255 / 2) 200 0 0 200 0 0 1 1).2.1
     (by norm_num [msWhich, cornerBit])⟩

/-- C4.  For every valid face code `±1 .. ±6` the face test selects the
corner iso-quadruple `A,B,C,D` (independently of the code's sign) and
returns `face * A * (A*C - B*D) >= 0`, except that when
`|A*C - B*D| < EPSILON` it returns the sign test `face >= 0`; invalid
face codes abort (modelled as `none`). -/
theorem claim_C4 (c : Cube) (face : ℤ)
    (hface : 1 ≤ |face| ∧ |face| ≤ 6) :
    faceABCD c face = faceABCD c (-face) ∧
    ∃ A B C D, faceABCD c face = some (A, B, C, D) ∧
      test_face c face =
        some (if |A * C - B * D| < EPSILON then decide (0 ≤ face)
              else decide (0 ≤ (face : ℚ) * A * (A * C - B * D))) := by
  obtain ⟨h1, h6⟩ := hface
  have hlb : -6 ≤ face := by
    rcases abs_cases face with ⟨he, _⟩ | ⟨he, _⟩ <;> omega
  have hub : face ≤ 6 := by
    rcases abs_cases face with ⟨he, _⟩ | ⟨he, _⟩ <;> omega
  have hne : face ≠ 0 := by
    intro h
    rw [h] at h1
    simp at h1
  interval_cases face <;>
    first
    | exact absurd rfl hne
    | exact ⟨rfl, _, _, _, _, rfl, rfl⟩

/-- Both `interior_ambiguity_verification` branch structures agree: the
source's early-return chain equals the single guarded test. -/
theorem iav_branch_eq (a t verify : ℚ) :
    (if 0 < a then (1 : ℕ)
     else if t < 0 ∨ 1 < t then 1
     else if 0 < verify then 0
     else if verify < 0 then 1 else 1) =
    (if ¬ 0 < a ∧ 0 ≤ t ∧ t ≤ 1 ∧ 0 < verify then 0 else 1) := by
  have hiff : (¬ 0 < a ∧ 0 ≤ t ∧ t ≤ 1 ∧ 0 < verify) ↔
      (¬ 0 < a ∧ ¬ (t < 0 ∨ 1 < t) ∧ 0 < verify) := by
    constructor
    · rintro ⟨x, y, z, w⟩
      refine ⟨x, ?_, w⟩
      push_neg
      exact ⟨y, z⟩
    · rintro ⟨x, y, w⟩
      push_neg at y
      exact ⟨x, y.1, y.2, w⟩
  rw [if_congr hiff rfl rfl]
  by_cases h1 : 0 < a
  · simp [h1]
  · by_cases h2 : t < 0 ∨ 1 < t
    · simp [h1, h2]
    · by_cases h3 : 0 < verify
      · simp [h1, h2, h3]
      · by_cases h4 : verify < 0 <;> simp [h1, h2, h3, h4]

/-- C2 (amended).  In the case-4 arm of the modified interior test, each
examined face votes `0` exactly when its quadratic verification is
reached (`a <= 0`, `t = -b/(2a)` in `[0,1]`) with `verify = At*Ct - Bt*Dt`
positive, and votes `1` otherwise; a NON-zero vote sum makes
`modified_test_interior` true and selects the simple tiling
`tiling4_1` (2 triangles), while a zero sum selects the subdivided
`tiling4_2` (6 triangles). -/
theorem claim_C2 (c : Cube) (s : ℤ) :
    (mcCase4Nsurf c s = 2 ↔ interAmbSum4 c s ≠ 0) ∧
    (mcCase4Nsurf c s = 6 ↔ interAmbSum4 c s = 0) ∧
    (∀ e : ℤ, interior_ambiguity_verification c e =
      if ¬ 0 < (iav_ab c e).1 ∧ 0 ≤ iavT c e ∧ iavT c e ≤ 1 ∧ 0 < iavVerify c e
      then 0 else 1) := by
  refine ⟨?_, ?_, ?_⟩
  · by_cases hs : interAmbSum4 c s = 0 <;>
      simp [mcCase4Nsurf, modified_test_interior_case4, hs]
  · by_cases hs : interAmbSum4 c s = 0 <;>
      simp [mcCase4Nsurf, modified_test_interior_case4, hs]
  · intro e
    unfold interior_ambiguity_verification
    by_cases he : 0 ≤ e ∧ e ≤ 11
    · rw [if_pos he]
      exact iav_branch_eq (iav_ab c e).1 (iavT c e) (iavVerify c e)
    · rw [if_neg he]
      have hne : ∀ k : ℤ, 0 ≤ k → k ≤ 11 → ¬ e = k := by
        intro k hk0 hk1 heq
        exact he ⟨by omega, by omega⟩
      have hab : iav_ab c e = (0, 0) := by
        unfold iav_ab
        rw [if_neg (hne 0 (by norm_num) (by norm_num)),
          if_neg (hne 1 (by norm_num) (by norm_num)),
          if_neg (hne 2 (by norm_num) (by norm_num)),
          if_neg (hne 3 (by norm_num) (by norm_num)),
          if_neg (hne 4 (by norm_num) (by norm_num)),
          if_neg (hne 5 (by norm_num) (by norm_num)),
          if_neg (hne 6 (by norm_num) (by norm_num)),
          if_neg (hne 7 (by norm_num) (by norm_num)),
          if_neg (hne 8 (by norm_num) (by norm_num)),
          if_neg (hne 9 (by norm_num) (by norm_num)),
          if_neg (hne 10 (by norm_num) (by norm_num)),
          if_neg (hne 11 (by norm_num) (by norm_num))]
      have hq : iav_quad c e (iavT c e) = (0, 0, 0, 0) := by
        unfold iav_quad
        rw [if_neg (hne 0 (by norm_num) (by norm_num)),
          if_neg (hne 1 (by norm_num) (by norm_num)),
          if_neg (hne 2 (by norm_num) (by norm_num)),
          if_neg (hne 3 (by norm_num) (by norm_num)),
          if_neg (hne 4 (by norm_num) (by norm_num)),
          if_neg (hne 5 (by norm_num) (by norm_num)),
          if_neg (hne 6 (by norm_num) (by norm_num)),
          if_neg (hne 7 (by norm_num) (by norm_num)),
          if_neg (hne 8 (by norm_num) (by norm_num)),
          if_neg (hne 9 (by norm_num) (by norm_num)),
          if_neg (hne 10 (by norm_num) (by norm_num)),
          if_neg (hne 11 (by norm_num) (by norm_num))]
      have hv : iavVerify c e = 0 := by
        simp only [iavVerify]
        rw [hq]
        norm_num
      have ha : (iav_ab c e).1 = 0 := by rw [hab]
      rw [ha, hv]
      norm_num

set_option maxHeartbeats 3200000 in
/-- Counterexample to C2 as stated: the case-4 cube `mcCornerCube`
(corners `205, 86, 16, 79, 90, 78, 123, 128`, threshold `127.5`) has a
non-zero vote sum under both the spec's vote rule and the source's vote
rule, for either sign `s = 7` or `s = -7` of the `test4` table entry, yet
the source emits the 2-triangle tiling `tiling4_1`, not the subdivided
6-triangle `tiling4_2` the claim requires for a non-zero sum. -/
theorem claim_C2_counterexample :
    case4Pattern mcCornerCube ∧
    (specVoteSum4 mcCornerCube 7 ≠ 0 ∧ interAmbSum4 mcCornerCube 7 ≠ 0 ∧
      mcCase4Nsurf mcCornerCube 7 = 2) ∧
    (specVoteSum4 mcCornerCube (-7) ≠ 0 ∧ interAmbSum4 mcCornerCube (-7) ≠ 0 ∧
      mcCase4Nsurf mcCornerCube (-7) = 2) := by
  have e17 : interior_ambiguity mcCornerCube 1 7 = 5 := by
    norm_num [interior_ambiguity, mcCornerCube]
  have e27 : interior_ambiguity mcCornerCube 2 7 = 3 := by
    norm_num [interior_ambiguity, mcCornerCube]
  have e57 : interior_ambiguity mcCornerCube 5 7 = 8 := by
    norm_num [interior_ambiguity, mcCornerCube]
  have e1m : interior_ambiguity mcCornerCube 1 (-7) = 7 := by
    norm_num [interior_ambiguity, mcCornerCube]
  have e2m : interior_ambiguity mcCornerCube 2 (-7) = 2 := by
    norm_num [interior_ambiguity, mcCornerCube]
  have e5m : interior_ambiguity mcCornerCube 5 (-7) = 11 := by
    norm_num [interior_ambiguity, mcCornerCube]
  have c5 : interior_ambiguity_verification mcCornerCube 5 = 0 := by
    norm_num [interior_ambiguity_verification, iav_ab, iav_quad, mcCornerCube]
  have c3 : interior_ambiguity_verification mcCornerCube 3 = 1 := by
    norm_num [interior_ambiguity_verification, iav_ab, iav_quad, mcCornerCube]
  have c8 : interior_ambiguity_verification mcCornerCube 8 = 1 := by
    norm_num [interior_ambiguity_verification, iav_ab, iav_quad, mcCornerCube]
  have c7 : interior_ambiguity_verification mcCornerCube 7 = 1 := by
    norm_num [interior_ambiguity_verification, iav_ab, iav_quad, mcCornerCube]
  have c2 : interior_ambiguity_verification mcCornerCube 2 = 1 := by
    norm_num [interior_ambiguity_verification, iav_ab, iav_quad, mcCornerCube]
  have c11 : interior_ambiguity_verification mcCornerCube 11 = 1 := by
    norm_num [interior_ambiguity_verification, iav_ab, iav_quad, mcCornerCube]
  have s5 : specInteriorVote mcCornerCube 5 = 1 := by
    norm_num [specInteriorVote, iavVerify, iavT, iav_ab, iav_quad, mcCornerCube]
  have s3 : specInteriorVote mcCornerCube 3 = 0 := by
    norm_num [specInteriorVote, iavVerify, iavT, iav_ab, iav_quad, mcCornerCube]
  have s8 : specInteriorVote mcCornerCube 8 = 1 := by
    norm_num [specInteriorVote, iavVerify, iavT, iav_ab, iav_quad, mcCornerCube]
  have s7 : specInteriorVote mcCornerCube 7 = 0 := by
    norm_num [specInteriorVote, iavVerify, iavT, iav_ab, iav_quad, mcCornerCube]
  have s2 : specInteriorVote mcCornerCube 2 = 1 := by
    norm_num [specInteriorVote, iavVerify, iavT, iav_ab, iav_quad, mcCornerCube]
  have s11 : specInteriorVote mcCornerCube 11 = 0 := by
    norm_num [specInteriorVote, iavVerify, iavT, iav_ab, iav_quad, mcCornerCube]
  have sum7 : interAmbSum4 mcCornerCube 7 = 2 := by
    rw [interAmbSum4, e17, e27, e57, c5, c3, c8]
  have sumM : interAmbSum4 mcCornerCube (-7) = 3 := by
    rw [interAmbSum4, e1m, e2m, e5m, c7, c2, c11]
  have sp7 : specVoteSum4 mcCornerCube 7 = 2 := by
    rw [specVoteSum4, e17, e27, e57, s5, s3, s8]
  have spM : specVoteSum4 mcCornerCube (-7) = 1 := by
    rw [specVoteSum4, e1m, e2m, e5m, s7, s2, s11]
  refine ⟨by norm_num [case4Pattern, mcCornerCube],
    ⟨by rw [sp7]; norm_num, by rw [sum7]; norm_num, ?_⟩,
    ⟨by rw [spM]; norm_num, by rw [sumM]; norm_num, ?_⟩⟩
  · rw [mcCase4Nsurf, modified_test_interior_case4, sum7]
    norm_num
  · rw [mcCase4Nsurf, modified_test_interior_case4, sumM]
    norm_num

/-- The conditional accumulation over any candidate list equals the count
and coordinatewise sums over its crossing sublist. -/
theorem foldl_accum_eq (l : List (Bool × Vec3)) (n : ℕ) (sx sy sz : ℚ) :
    l.foldl
      (fun acc p =>
        if p.1 then (acc.1 + 1, acc.2.1 + p.2.x, acc.2.2.1 + p.2.y, acc.2.2.2 + p.2.z)
        else acc)
      (n, sx, sy, sz) =
    (n + (l.filter (fun p => p.1)).length,
     sx + (((l.filter (fun p => p.1)).map (fun p => p.2)).map Vec3.x).sum,
     sy + (((l.filter (fun p => p.1)).map (fun p => p.2)).map Vec3.y).sum,
     sz + (((l.filter (fun p => p.1)).map (fun p => p.2)).map Vec3.z).sum) := by
  induction l generalizing n sx sy sz with
  | nil => simp
  | cons hd tl ih =>
    cases hb : hd.1 <;> simp only [List.foldl_cons, hb, if_true, if_false,
      List.filter_cons, List.map_cons, List.length_cons, List.sum_cons, ite_true,
      ite_false, cond_true, cond_false, ih] <;>
      refine Prod.ext ?_ (Prod.ext ?_ (Prod.ext ?_ ?_)) <;> simp <;> ring

/-- C9.  The virtual edge 12 of `add_triangle` is the arithmetic mean of
the interpolated threshold crossings over exactly the cube edges whose two
endpoint sign bits differ, and every tile vertex with edge index `0..11`
lies on an edge of the cell bounding box. -/
theorem claim_C9 (c : MCCell)
    (h0 : c.lo0 ≤ c.hi0) (h1 : c.lo1 ≤ c.hi1) (h2 : c.lo2 ≤ c.hi2) :
    tilePoint c 12 = meanPoint (crossingPoints c) ∧
    (∀ e : ℤ, 0 ≤ e → e ≤ 11 → OnBoxEdge c (tilePoint c e)) := by
  constructor
  · have hacc := foldl_accum_eq (crossCandidates c) 0 0 0 0
    show (let acc := edge12Accum c;
      (⟨acc.2.1 / (acc.1 : ℚ), acc.2.2.1 / (acc.1 : ℚ), acc.2.2.2 / (acc.1 : ℚ)⟩ : Vec3)) =
      meanPoint (crossingPoints c)
    rw [show edge12Accum c = _ from hacc]
    simp [meanPoint, crossingPoints]
  · intro e he0 he1
    interval_cases e
    · exact Or.inl ⟨Or.inl rfl, Or.inl rfl,
        lo_le_interpolate _ _ _ _ _ h0, interpolate_le_hi _ _ _ _ _⟩
    · exact Or.inr (Or.inl ⟨Or.inr rfl, Or.inl rfl,
        lo_le_interpolate _ _ _ _ _ h1, interpolate_le_hi _ _ _ _ _⟩)
    · exact Or.inl ⟨Or.inr rfl, Or.inl rfl,
        lo_le_interpolate _ _ _ _ _ h0, interpolate_le_hi _ _ _ _ _⟩
    · exact Or.inr (Or.inl ⟨Or.inl rfl, Or.inl rfl,
        lo_le_interpolate _ _ _ _ _ h1, interpolate_le_hi _ _ _ _ _⟩)
    · exact Or.inl ⟨Or.inl rfl, Or.inr rfl,
        lo_le_interpolate _ _ _ _ _ h0, interpolate_le_hi _ _ _ _ _⟩
    · exact Or.inr (Or.inl ⟨Or.inr rfl, Or.inr rfl,
        lo_le_interpolate _ _ _ _ _ h1, interpolate_le_hi _ _ _ _ _⟩)
    · exact Or.inl ⟨Or.inr rfl, Or.inr rfl,
        lo_le_interpolate _ _ _ _ _ h0, interpolate_le_hi _ _ _ _ _⟩
    · exact Or.inr (Or.inl ⟨Or.inl rfl, Or.inr rfl,
        lo_le_interpolate _ _ _ _ _ h1, interpolate_le_hi _ _ _ _ _⟩)
    · exact Or.inr (Or.inr ⟨Or.inl rfl, Or.inl rfl,
        lo_le_interpolate _ _ _ _ _ h2, interpolate_le_hi _ _ _ _ _⟩)
    · exact Or.inr (Or.inr ⟨Or.inr rfl, Or.inl rfl,
        lo_le_interpolate _ _ _ _ _ h2, interpolate_le_hi _ _ _ _ _⟩)
    · exact Or.inr (Or.inr ⟨Or.inr rfl, Or.inr rfl,
        lo_le_interpolate _ _ _ _ _ h2, interpolate_le_hi _ _ _ _ _⟩)
    · exact Or.inr (Or.inr ⟨Or.inl rfl, Or.inr rfl,
        lo_le_interpolate _ _ _ _ _ h2, interpolate_le_hi _ _ _ _ _⟩)

/-- Witness for C9 at the unit cell with a single inside corner
(`v000 = 200`, all others `0`, threshold `127.5`). -/
theorem claim_C9_witness :
    ((0 : ℚ) ≤ 1 ∧ (0 : ℚ) ≤ 1 ∧ (0 : ℚ) ≤ 1) ∧
    (tilePoint ⟨255 / 2, 200, 0, 0, 0, 0, 0, 0, 0, 0, 0, 0, 1, 1, 1⟩ 12 =
      meanPoint (crossingPoints ⟨255 / 2, 200, 0, 0, 0, 0, 0, 0, 0, 0, 0, 0, 1, 1, 1⟩) ∧
    (∀ e : ℤ, 0 ≤ e → e ≤ 11 →
      OnBoxEdge ⟨255 / 2, 200, 0, 0, 0, 0, 0, 0, 0, 0, 0, 0, 1, 1, 1⟩
        (tilePoint ⟨255 / 2, 200, 0, 0, 0, 0, 0, 0, 0, 0, 0, 0, 1, 1, 1⟩ e))) :=
  ⟨⟨by norm_num, by norm_num, by norm_num⟩,
   claim_C9 ⟨255 / 2, 200, 0, 0, 0, 0, 0, 0, 0, 0, 0, 0, 1, 1, 1⟩
     (by norm_num) (by norm_num) (by norm_num)⟩

/-- The source's cumulative `zeroflag` test agrees with the claim's
description of a violating sample. -/
theorem boundaryZeroViolation_iff (dim nx ny nz idx val : ℕ) :
    boundaryZeroViolation dim nx ny nz idx val = true ↔
      boundarySample dim nx ny nz idx val := by
  by_cases hv : val = 0
  · simp [boundaryZeroViolation, boundarySample, hv]
  · simp only [boundaryZeroViolation, boundarySample, hv, if_pos, ne_eq,
      not_false_eq_true, decide_eq_true_eq, if_true, true_and]
    tauto

/-- `assign_corners_check` never returns any error other than
`BoundaryNotZero`. -/
theorem assign_corners_check_cases (dim nx ny nz : ℕ) (offset : ℕ) (buf : List ℕ) :
    assign_corners_check dim nx ny nz offset buf = Except.ok () ∨
    assign_corners_check dim nx ny nz offset buf =
      Except.error IngestError.BoundaryNotZero := by
  induction buf generalizing offset with
  | nil => exact Or.inl rfl
  | cons v rest ih =>
    by_cases hb : boundaryZeroViolation dim nx ny nz offset v
    · exact Or.inr (by simp [assign_corners_check, hb])
    · rcases ih (offset + 1) with h | h <;>
        [exact Or.inl (by simp [assign_corners_check, hb, h]);
         exact Or.inr (by simp [assign_corners_check, hb, h])]

/-- The chunk check fails exactly when some sample of the chunk violates
the boundary rule. -/
theorem assign_corners_check_error_iff (dim nx ny nz : ℕ) (offset : ℕ)
    (buf : List ℕ) :
    assign_corners_check dim nx ny nz offset buf =
        Except.error IngestError.BoundaryNotZero ↔
      ∃ i < buf.length, boundarySample dim nx ny nz (offset + i) (buf.getD i 0) := by
  induction buf generalizing offset with
  | nil => simp [assign_corners_check]
  | cons v rest ih =>
    by_cases hb : boundaryZeroViolation dim nx ny nz offset v
    · simp only [assign_corners_check, hb, if_true, true_iff]
      exact ⟨0, by simp, by
        simpa using (boundaryZeroViolation_iff dim nx ny nz offset v).mp hb⟩
    · simp only [assign_corners_check, hb, if_false, Bool.false_eq_true]
      rw [ih (offset + 1)]
      constructor
      · rintro ⟨i, hi, hcond⟩
        exact ⟨i + 1, by simpa using Nat.succ_lt_succ hi, by
          simpa [Nat.add_assoc, Nat.add_comm 1 i] using hcond⟩
      · rintro ⟨i, hi, hcond⟩
        match i with
        | 0 =>
          exfalso
          apply hb
          rw [boundaryZeroViolation_iff]
          simpa using hcond
        | Nat.succ j =>
          exact ⟨j, by simpa using Nat.lt_of_succ_lt_succ hi, by
            simpa [Nat.add_assoc, Nat.add_comm 1 j] using hcond⟩

/-- C6.  Corner ingestion aborts with `BoundaryNotZero` exactly when some
sample of the chunk is non-zero with a lattice coordinate on the outer
boundary (x index `0`/`nx`, y index `0`/`ny`, and in 3-D z index
`0`/`nz`); zero-valued boundary samples and interior samples never
trigger it (the chunk is ingested with `ok`). -/
theorem claim_C6 (dim nx ny nz : ℕ) (offset : ℕ) (buf : List ℕ) :
    (assign_corners_check dim nx ny nz offset buf =
        Except.error IngestError.BoundaryNotZero ↔
      ∃ i < buf.length, boundarySample dim nx ny nz (offset + i) (buf.getD i 0)) ∧
    (assign_corners_check dim nx ny nz offset buf = Except.ok () ↔
      ¬ ∃ i < buf.length, boundarySample dim nx ny nz (offset + i) (buf.getD i 0)) := by
  refine ⟨assign_corners_check_error_iff dim nx ny nz offset buf, ?_⟩
  rw [← assign_corners_check_error_iff dim nx ny nz offset buf]
  rcases assign_corners_check_cases dim nx ny nz offset buf with h | h <;>
    simp [h]

/-- `getD` after `set` at the written index. -/
theorem getD_set_self {α : Type} (l : List α) (i : ℕ) (a d : α)
    (h : i < l.length) : (l.set i a).getD i d = a := by
  simp [List.getD_eq_getElem?_getD, List.getElem?_set_self h]

/-- `getD` after `set` at a different index. -/
theorem getD_set_ne {α : Type} (l : List α) (i j : ℕ) (hij : i ≠ j) (a d : α) :
    (l.set i a).getD j d = l.getD j d := by
  simp [List.getD_eq_getElem?_getD, List.getElem?_set_ne hij]

/-- Swap-with-last removal deletes exactly one occurrence of its target:
as a multiset, `removeSwap l m = l - {m}` whenever `m ∈ l`. -/
theorem removeSwap_coe (l : List ℕ) (m : ℕ) (h : m ∈ l) :
    ((removeSwap l m : List ℕ) : Multiset ℕ) = (↑l : Multiset ℕ) - {m} := by
  induction l with
  | nil => cases h
  | cons a l ih =>
    by_cases ha : a = m
    · subst ha
      cases l with
      | nil =>
        have hstep : removeSwap [a] a = [] := by
          show (if a = a then ([] : List ℕ) else _) = []
          exact if_pos rfl
        rw [hstep]
        simp
      | cons b l' =>
        have hstep : removeSwap (a :: b :: l') a =
            (b :: l').getLast (List.cons_ne_nil b l') :: (b :: l').dropLast := by
          show (if a = a then
            ((b :: l').getLast (List.cons_ne_nil b l') :: (b :: l').dropLast) else _) = _
          exact if_pos rfl
        rw [hstep]
        have hsub : ((a :: b :: l' : List ℕ) : Multiset ℕ) - {a} =
            ((b :: l' : List ℕ) : Multiset ℕ) := by
          rw [show ((a :: b :: l' : List ℕ) : Multiset ℕ) = a ::ₘ ↑(b :: l') from rfl]
          rw [show ({a} : Multiset ℕ) = a ::ₘ 0 from rfl]
          rw [Multiset.sub_cons]
          simp
        rw [hsub]
        conv_rhs => rw [← List.dropLast_append_getLast (List.cons_ne_nil b l')]
        simp only [Multiset.coe_eq_coe]
        exact (List.perm_append_singleton _ _).symm
    · have hm : m ∈ l := by
        rcases List.mem_cons.mp h with h1 | h1
        · exact absurd h1.symm ha
        · exact h1
      have hstep : removeSwap (a :: l) m = a :: removeSwap l m := by
        show (if a = m then _ else a :: removeSwap l m) = a :: removeSwap l m
        exact if_neg ha
      rw [hstep]
      rw [show ((a :: removeSwap l m : List ℕ) : Multiset ℕ) =
          a ::ₘ ↑(removeSwap l m) from rfl]
      rw [ih hm]
      rw [show ((a :: l : List ℕ) : Multiset ℕ) = a ::ₘ ↑l from rfl]
      rw [Multiset.cons_sub_of_le a (Multiset.singleton_le.mpr hm)]

/-- Removing two distinct members by swap-with-last removes exactly those
two occurrences. -/
theorem removeSwap_pair_coe (l : List ℕ) (t1 t2 : ℕ)
    (h1 : t1 ∈ l) (h2 : t2 ∈ l) (hne : t1 ≠ t2) :
    ((removeSwap (removeSwap l t1) t2 : List ℕ) : Multiset ℕ) =
      (↑l : Multiset ℕ) - {t1, t2} := by
  have h0 : Multiset.count t2 ({t1} : Multiset ℕ) = 0 := by
    simp [Multiset.count_singleton, Ne.symm hne]
  have hcnt : 0 < Multiset.count t2 ((↑l : Multiset ℕ) - {t1}) := by
    rw [Multiset.count_sub, h0, Nat.sub_zero]
    exact Multiset.count_pos.mpr (by simpa using h2)
  have hmem : t2 ∈ removeSwap l t1 := by
    rw [← removeSwap_coe l t1 h1] at hcnt
    simpa using Multiset.count_pos.mp hcnt
  rw [removeSwap_coe _ t2 hmem, removeSwap_coe l t1 h1, tsub_tsub]
  congr 1

/-- The two recorded face triangles belong to the cell's surface list. -/
theorem facetriPair_mem (st : MCState) (icell iface t1 t2 : ℕ)
    (hpair : facetriPair st icell iface = [t1, t2]) :
    t1 ∈ (st.cell icell).csurfs ∧ t2 ∈ (st.cell icell).csurfs := by
  have hsub : facetriPair st icell iface ⊆ (st.cell icell).csurfs := by
    intro x hx
    have hx1 : x ∈ faceTris st icell iface := List.take_subset 2 _ hx
    exact (List.mem_filter.mp hx1).1
  rw [hpair] at hsub
  exact ⟨hsub (by simp), hsub (by simp)⟩

/-- With a duplicate-free surface list the two recorded face triangles
are distinct. -/
theorem facetriPair_ne (st : MCState) (icell iface t1 t2 : ℕ)
    (hnd : (st.cell icell).csurfs.Nodup)
    (hpair : facetriPair st icell iface = [t1, t2]) : t1 ≠ t2 := by
  have hnodup : (facetriPair st icell iface).Nodup :=
    ((hnd.filter _).sublist (List.take_sublist 2 _))
  rw [hpair] at hnodup
  simpa using hnodup

/-- `cell` after `updCsurfs` at the updated index. -/
theorem cell_updCsurfs_self (st : MCState) (i : ℕ) (f : List ℕ → List ℕ)
    (h : i < st.cells.length) :
    (updCsurfs st i f).cell i = { st.cell i with csurfs := f (st.cell i).csurfs } := by
  simp only [updCsurfs, MCState.cell]
  exact getD_set_self _ _ _ _ h

/-- `cell` after `updCsurfs` at a different index. -/
theorem cell_updCsurfs_ne (st : MCState) (i j : ℕ) (f : List ℕ → List ℕ)
    (hij : i ≠ j) : (updCsurfs st i f).cell j = st.cell j := by
  simp only [updCsurfs, MCState.cell]
  exact getD_set_ne _ _ _ hij _ _

/-- `updCsurfs` leaves the triangle store untouched. -/
theorem tri_updCsurfs (st : MCState) (i : ℕ) (f : List ℕ → List ℕ) (m : ℕ) :
    (updCsurfs st i f).tri m = st.tri m := rfl

/-- `setTriId` leaves the cells untouched. -/
theorem cell_setTriId (st : MCState) (m : ℕ) (cid : ℤ) (i : ℕ) :
    (setTriId st m cid).cell i = st.cell i := rfl

/-- `tri` after `setTriId` at the retagged index. -/
theorem tri_setTriId_self (st : MCState) (m : ℕ) (cid : ℤ)
    (h : m < st.tris.length) :
    (setTriId st m cid).tri m = { st.tri m with id := cid } := by
  simp only [setTriId, MCState.tri]
  exact getD_set_self _ _ _ _ h

/-- `tri` after `setTriId` at a different index. -/
theorem tri_setTriId_ne (st : MCState) (m : ℕ) (cid : ℤ) (n : ℕ)
    (hmn : m ≠ n) : (setTriId st m cid).tri n = st.tri n := by
  simp only [setTriId, MCState.tri]
  exact getD_set_ne _ _ _ hmn _ _

/-- C1.  Same-process face cleanup for one interior face whose cell
`icell` holds the two face triangles `t1, t2`: if the neighbour has none
and the pair's normal is inward to `icell`, the state is unchanged (the
pair stays); if the neighbour has none and the normal is not inward, the
pair is appended to the neighbour's surface list, the two owning cell IDs
are retagged to the neighbour, and the pair is removed from `icell`; if
the neighbour holds two (`o1, o2`) as well, all four are removed from
both cells and queued for deletion. -/
theorem claim_C1 (st : MCState) (icell othercell iface t1 t2 o1 o2 : ℕ)
    (hic : icell < st.cells.length) (hoc : othercell < st.cells.length)
    (hio : icell ≠ othercell)
    (hnd : (st.cell icell).csurfs.Nodup) (hndo : (st.cell othercell).csurfs.Nodup)
    (hpair : facetriPair st icell iface = [t1, t2])
    (ht1 : t1 < st.tris.length) (ht2 : t2 < st.tris.length) :
    (nfacetri st othercell (otherFace iface) = 0 →
      inwardnorm (st.tri t1).norm iface = true →
      sameProcStep st icell othercell iface = st) ∧
    (nfacetri st othercell (otherFace iface) = 0 →
      inwardnorm (st.tri t1).norm iface = false →
      ((sameProcStep st icell othercell iface).cell othercell).csurfs =
          (st.cell othercell).csurfs ++ [t1, t2] ∧
        ((sameProcStep st icell othercell iface).tri t1).id = (st.cell othercell).id ∧
        ((sameProcStep st icell othercell iface).tri t2).id = (st.cell othercell).id ∧
        (↑((sameProcStep st icell othercell iface).cell icell).csurfs : Multiset ℕ) =
          (↑(st.cell icell).csurfs : Multiset ℕ) - {t1, t2} ∧
        (sameProcStep st icell othercell iface).dellist = st.dellist) ∧
    (nfacetri st othercell (otherFace iface) = 2 →
      facetriPair st othercell (otherFace iface) = [o1, o2] →
      (↑((sameProcStep st icell othercell iface).cell icell).csurfs : Multiset ℕ) =
          (↑(st.cell icell).csurfs : Multiset ℕ) - {t1, t2} ∧
        (↑((sameProcStep st icell othercell iface).cell othercell).csurfs : Multiset ℕ) =
          (↑(st.cell othercell).csurfs : Multiset ℕ) - {o1, o2} ∧
        (sameProcStep st icell othercell iface).dellist =
          st.dellist ++ [t1, t2, o1, o2]) := by
  have hm := facetriPair_mem st icell iface t1 t2 hpair
  have ht12 := facetriPair_ne st icell iface t1 t2 hnd hpair
  refine ⟨?_, ?_, ?_⟩
  · intro h0 hinw
    simp only [sameProcStep, hpair, h0, hinw]
    norm_num
  · intro h0 hinw
    have hred : sameProcStep st icell othercell iface =
        updCsurfs
          (setTriId
            (setTriId (updCsurfs st othercell (fun l => l ++ [t1, t2]))
              t1 (st.cell othercell).id)
            t2 (st.cell othercell).id)
          icell (fun l => removeSwap (removeSwap l t1) t2) := by
      simp only [sameProcStep, hpair, h0, hinw]
      norm_num
    rw [hred]
    refine ⟨?_, ?_, ?_, ?_, rfl⟩
    · rw [cell_updCsurfs_ne _ _ _ _ hio, cell_setTriId, cell_setTriId,
        cell_updCsurfs_self _ _ _ hoc]
    · rw [tri_updCsurfs,
        tri_setTriId_ne _ _ _ _ (Ne.symm ht12)]
      have ht1' : t1 < ((updCsurfs st othercell (fun l => l ++ [t1, t2])).tris).length := ht1
      rw [tri_setTriId_self _ _ _ ht1']
    · have ht2' : t2 < ((setTriId (updCsurfs st othercell (fun l => l ++ [t1, t2]))
          t1 (st.cell othercell).id).tris).length := by
        simp only [setTriId, List.length_set]
        exact ht2
      rw [tri_updCsurfs, tri_setTriId_self _ _ _ ht2']
    · have hic' : icell < ((setTriId
          (setTriId (updCsurfs st othercell (fun l => l ++ [t1, t2]))
            t1 (st.cell othercell).id)
          t2 (st.cell othercell).id).cells).length := by
        simp only [setTriId, updCsurfs, List.length_set]
        exact hic
      rw [cell_updCsurfs_self _ _ _ hic', cell_setTriId, cell_setTriId,
        cell_updCsurfs_ne _ _ _ _ (Ne.symm hio)]
      exact removeSwap_pair_coe _ _ _ hm.1 hm.2 ht12
  · intro h2 hopair
    have hmo := facetriPair_mem st othercell (otherFace iface) o1 o2 hopair
    have ho12 := facetriPair_ne st othercell (otherFace iface) o1 o2 hndo hopair
    have hred : sameProcStep st icell othercell iface =
        { updCsurfs
            (updCsurfs st othercell (fun l => removeSwap (removeSwap l o1) o2))
            icell (fun l => removeSwap (removeSwap l t1) t2) with
          dellist :=
            (updCsurfs
              (updCsurfs st othercell (fun l => removeSwap (removeSwap l o1) o2))
              icell (fun l => removeSwap (removeSwap l t1) t2)).dellist ++
              [t1, t2, o1, o2] } := by
      simp only [sameProcStep, hpair, hopair, h2]
      norm_num
    rw [hred]
    refine ⟨?_, ?_, rfl⟩
    · have hic' : icell <
          ((updCsurfs st othercell (fun l => removeSwap (removeSwap l o1) o2)).cells).length := by
        simp only [updCsurfs, List.length_set]
        exact hic
      show (↑((updCsurfs
          (updCsurfs st othercell (fun l => removeSwap (removeSwap l o1) o2))
          icell (fun l => removeSwap (removeSwap l t1) t2)).cell icell).csurfs : Multiset ℕ) = _
      rw [cell_updCsurfs_self _ _ _ hic', cell_updCsurfs_ne _ _ _ _ (Ne.symm hio)]
      exact removeSwap_pair_coe _ _ _ hm.1 hm.2 ht12
    · show (↑((updCsurfs
          (updCsurfs st othercell (fun l => removeSwap (removeSwap l o1) o2))
          icell (fun l => removeSwap (removeSwap l t1) t2)).cell othercell).csurfs : Multiset ℕ) = _
      rw [cell_updCsurfs_ne _ _ _ _ hio, cell_updCsurfs_self _ _ _ hoc]
      exact removeSwap_pair_coe _ _ _ hmo.1 hmo.2 ho12

/-- A process's violation count is non-zero exactly when one of its cell
faces carries a triangle count other than 0 or 2. -/
theorem nonPairedCount_ne_zero (st : MCState) :
    nonPairedCount st ≠ 0 ↔
      ∃ icell < st.cells.length, ∃ iface < 6,
        nfacetri st icell iface ≠ 0 ∧ nfacetri st icell iface ≠ 2 := by
  unfold nonPairedCount
  rw [Ne, List.sum_eq_zero_iff]
  simp only [List.mem_map, List.mem_range, not_forall]
  constructor
  · rintro ⟨x, ⟨icell, hi, hx⟩, hxne⟩
    refine ⟨icell, hi, ?_⟩
    rw [← hx] at hxne
    rw [List.sum_eq_zero_iff] at hxne
    simp only [List.mem_map, List.mem_range, not_forall] at hxne
    obtain ⟨y, ⟨iface, hf, hy⟩, hyne⟩ := hxne
    refine ⟨iface, hf, ?_⟩
    rw [← hy] at hyne
    by_contra hcon
    rw [not_and_or, not_not, not_not] at hcon
    rcases hcon with hcon | hcon <;> simp [hcon] at hyne
  · rintro ⟨icell, hi, iface, hf, hcond⟩
    refine ⟨_, ⟨icell, hi, rfl⟩, ?_⟩
    rw [List.sum_eq_zero_iff]
    simp only [List.mem_map, List.mem_range, not_forall]
    exact ⟨_, ⟨iface, hf, rfl⟩, by simp [hcond]⟩

/-- C7.  The pre-cleanup pairing check fails with `NonPairedFace` exactly
when, on some process, some cell face carries a triangle count that is
neither 0 nor 2; when every face count is 0 or 2 on every process the
check passes and cleanup proceeds. -/
theorem claim_C7 (procs : List MCState) :
    (pairingCheck procs = Except.error CleanupError.NonPairedFace ↔
      ∃ st ∈ procs, ∃ icell < st.cells.length, ∃ iface < 6,
        nfacetri st icell iface ≠ 0 ∧ nfacetri st icell iface ≠ 2) ∧
    (pairingCheck procs = Except.ok () ↔
      ¬ ∃ st ∈ procs, ∃ icell < st.cells.length, ∃ iface < 6,
        nfacetri st icell iface ≠ 0 ∧ nfacetri st icell iface ≠ 2) := by
  have hkey : (procs.map nonPairedCount).sum ≠ 0 ↔
      ∃ st ∈ procs, ∃ icell < st.cells.length, ∃ iface < 6,
        nfacetri st icell iface ≠ 0 ∧ nfacetri st icell iface ≠ 2 := by
    rw [Ne, List.sum_eq_zero_iff]
    simp only [List.mem_map, not_forall]
    constructor
    · rintro ⟨x, ⟨st, hst, hx⟩, hxne⟩
      rw [← hx] at hxne
      exact ⟨st, hst, (nonPairedCount_ne_zero st).mp hxne⟩
    · rintro ⟨st, hst, hcond⟩
      exact ⟨_, ⟨st, hst, rfl⟩, (nonPairedCount_ne_zero st).mpr hcond⟩
  constructor
  · rw [← hkey]
    by_cases h : (procs.map nonPairedCount).sum ≠ 0 <;> simp [pairingCheck, h]
  · rw [← hkey]
    by_cases h : (procs.map nonPairedCount).sum ≠ 0 <;> simp [pairingCheck, h]

/-- C3.  Cross-process cleanup protocol, sender and receiver sides.
Sender (cell face of `icell` with pair `t1, t2`, neighbour on another
process): the enqueued record carries the sender cell/face, the expected
receiver cell/face, the `inwardnorm` flag and copies of both triangles,
and the local pair is deleted (and queued on `dellist`) exactly when
`inwardnorm` is false.  Receiver (record `d` against a matching face
whose phase-1 tally is zero): when the sender's normal was inward to the
sender the local cell is untouched; otherwise the two triangles are
appended to the local store with owning cell IDs retagged to the local
cell and spliced into that cell's surface list. -/
theorem claim_C3 (st : MCState) (icell otherlocal iface t1 t2 : ℕ)
    (st2 : MCState) (d : SendDatum) (pair : List ℕ)
    (hic : icell < st.cells.length)
    (hnd : (st.cell icell).csurfs.Nodup)
    (hpair : facetriPair st icell iface = [t1, t2])
    (hoc2 : d.othercell < st2.cells.length) :
    ((sendStep st icell otherlocal iface).1 =
        ⟨icell, iface, otherlocal, otherFace iface,
          inwardnorm (st.tri t1).norm iface, st.tri t1, st.tri t2⟩) ∧
    (inwardnorm (st.tri t1).norm iface = true →
      (sendStep st icell otherlocal iface).2 = st) ∧
    (inwardnorm (st.tri t1).norm iface = false →
      (↑((sendStep st icell otherlocal iface).2.cell icell).csurfs : Multiset ℕ) =
          (↑(st.cell icell).csurfs : Multiset ℕ) - {t1, t2} ∧
        (sendStep st icell otherlocal iface).2.dellist = st.dellist ++ [t1, t2] ∧
        (sendStep st icell otherlocal iface).2.tris = st.tris) ∧
    (d.inwardnorm = true → recvStep st2 d 0 pair = st2) ∧
    (d.inwardnorm = false →
      (recvStep st2 d 0 pair).tris =
          st2.tris ++ [{ d.tri1 with id := (st2.cell d.othercell).id },
                       { d.tri2 with id := (st2.cell d.othercell).id }] ∧
        ((recvStep st2 d 0 pair).cell d.othercell).csurfs =
          (st2.cell d.othercell).csurfs ++ [st2.tris.length, st2.tris.length + 1]) := by
  have hm := facetriPair_mem st icell iface t1 t2 hpair
  have ht12 := facetriPair_ne st icell iface t1 t2 hnd hpair
  refine ⟨?_, ?_, ?_, ?_, ?_⟩
  · simp only [sendStep, hpair]
    by_cases hinw : inwardnorm (st.tri t1).norm iface <;> simp [hinw]
  · intro hinw
    simp only [sendStep, hpair, hinw]
    simp
  · intro hinw
    have hred : (sendStep st icell otherlocal iface).2 =
        { updCsurfs st icell (fun l => removeSwap (removeSwap l t1) t2) with
            dellist := st.dellist ++ [t1, t2] } := by
      simp only [sendStep, hpair, hinw]
      norm_num
    rw [hred]
    refine ⟨?_, rfl, rfl⟩
    show (↑((updCsurfs st icell (fun l => removeSwap (removeSwap l t1) t2)).cell
        icell).csurfs : Multiset ℕ) = _
    rw [cell_updCsurfs_self _ _ _ hic]
    exact removeSwap_pair_coe _ _ _ hm.1 hm.2 ht12
  · intro hinw
    simp only [recvStep, hinw]
    norm_num
  · intro hinw
    have hred : recvStep st2 d 0 pair =
        updCsurfs
          { st2 with tris := st2.tris ++
              [{ d.tri1 with id := (st2.cell d.othercell).id },
               { d.tri2 with id := (st2.cell d.othercell).id }] }
          d.othercell (fun l => l ++ [st2.tris.length, st2.tris.length + 1]) := by
      simp only [recvStep, hinw]
      norm_num
    rw [hred]
    have hoc2' : d.othercell <
        ({ st2 with tris := st2.tris ++
            [{ d.tri1 with id := (st2.cell d.othercell).id },
             { d.tri2 with id := (st2.cell d.othercell).id }] } : MCState).cells.length :=
      hoc2
    refine ⟨rfl, ?_⟩
    rw [cell_updCsurfs_self _ _ _ hoc2']
    rfl

/-- C10.  When a receiving process adopts a triangle pair (matching face
with zero triangles, sender's normal not inward to the sender), each
appended triangle is a field-for-field copy of the sender's triangle —
label, mask, the three vertices and the normal are unchanged — with only
the owning cell ID rewritten to the receiving cell's ID. -/
theorem claim_C10 (st : MCState) (d : SendDatum) (pair : List ℕ)
    (hinw : d.inwardnorm = false) :
    ∃ u1 u2 : Tri,
      (recvStep st d 0 pair).tris = st.tris ++ [u1, u2] ∧
      u1.ttype = d.tri1.ttype ∧ u1.mask = d.tri1.mask ∧
      u1.p1 = d.tri1.p1 ∧ u1.p2 = d.tri1.p2 ∧ u1.p3 = d.tri1.p3 ∧
      u1.norm = d.tri1.norm ∧ u1.id = (st.cell d.othercell).id ∧
      u2.ttype = d.tri2.ttype ∧ u2.mask = d.tri2.mask ∧
      u2.p1 = d.tri2.p1 ∧ u2.p2 = d.tri2.p2 ∧ u2.p3 = d.tri2.p3 ∧
      u2.norm = d.tri2.norm ∧ u2.id = (st.cell d.othercell).id := by
  refine ⟨{ d.tri1 with id := (st.cell d.othercell).id },
    { d.tri2 with id := (st.cell d.othercell).id },
    ?_, rfl, rfl, rfl, rfl, rfl, rfl, rfl, rfl, rfl, rfl, rfl, rfl, rfl, rfl⟩
  simp only [recvStep, hinw]
  norm_num
  rfl

/-- Witness for C4 at face code `2` on the concrete cube `mcCornerCube`. -/
theorem claim_C4_witness :
    ((1 : ℤ) ≤ |(2 : ℤ)| ∧ |(2 : ℤ)| ≤ 6) ∧
    (faceABCD mcCornerCube 2 = faceABCD mcCornerCube (-2) ∧
     ∃ A B C D, faceABCD mcCornerCube 2 = some (A, B, C, D) ∧
       test_face mcCornerCube 2 =
         some (if |A * C - B * D| < EPSILON then decide (0 ≤ (2 : ℤ))
               else decide (0 ≤ ((2 : ℤ) : ℚ) * A * (A * C - B * D)))) :=
  ⟨⟨by norm_num, by norm_num⟩,
   claim_C4 mcCornerCube 2 ⟨by norm_num, by norm_num⟩⟩

/-- Witness for C1: in `wState`, cell 0 holds the face pair `(0, 1)` on
its face `x = 1` with outward normal, cell 1 holds none, so the pair is
transferred to cell 1 and retagged. -/
theorem claim_C1_witness :
    (nfacetri wState 1 (otherFace 1) = 0 ∧
     inwardnorm (wState.tri 0).norm 1 = false ∧
     facetriPair wState 0 1 = [0, 1]) ∧
    (((sameProcStep wState 0 1 1).cell 1).csurfs = (wState.cell 1).csurfs ++ [0, 1] ∧
     ((sameProcStep wState 0 1 1).tri 0).id = (wState.cell 1).id ∧
     ((sameProcStep wState 0 1 1).tri 1).id = (wState.cell 1).id ∧
     (↑((sameProcStep wState 0 1 1).cell 0).csurfs : Multiset ℕ) =
       (↑(wState.cell 0).csurfs : Multiset ℕ) - {0, 1} ∧
     (sameProcStep wState 0 1 1).dellist = wState.dellist) :=
  ⟨⟨by decide, by decide, by decide⟩,
   (claim_C1 wState 0 1 1 0 1 0 0 (by decide) (by decide) (by decide) (by decide)
      (by decide) (by decide) (by decide) (by decide)).2.1 (by decide) (by decide)⟩

/-- Witness for C3: the sender side on `wState` (outward normal, so the
local pair is deleted and queued), and the receiver side adopting the
pair of `wDatum` into `wState`'s cell 1. -/
theorem claim_C3_witness :
    (facetriPair wState 0 1 = [0, 1] ∧
     inwardnorm (wState.tri 0).norm 1 = false ∧
     wDatum.inwardnorm = false) ∧
    ((↑((sendStep wState 0 1 1).2.cell 0).csurfs : Multiset ℕ) =
        (↑(wState.cell 0).csurfs : Multiset ℕ) - {0, 1} ∧
      (sendStep wState 0 1 1).2.dellist = wState.dellist ++ [0, 1] ∧
      (sendStep wState 0 1 1).2.tris = wState.tris) ∧
    ((recvStep wState wDatum 0 []).tris =
        wState.tris ++ [{ wDatum.tri1 with id := (wState.cell wDatum.othercell).id },
                        { wDatum.tri2 with id := (wState.cell wDatum.othercell).id }] ∧
      ((recvStep wState wDatum 0 []).cell wDatum.othercell).csurfs =
        (wState.cell wDatum.othercell).csurfs ++
          [wState.tris.length, wState.tris.length + 1]) :=
  ⟨⟨by decide, by decide, by decide⟩,
   (claim_C3 wState 0 1 1 0 1 wState wDatum []
      (by decide) (by decide) (by decide) (by decide)).2.2.1 (by decide),
   (claim_C3 wState 0 1 1 0 1 wState wDatum []
      (by decide) (by decide) (by decide) (by decide)).2.2.2.2 (by decide)⟩

/-- Witness for C10: adopting `wDatum`'s pair into `wState`. -/
theorem claim_C10_witness :
    wDatum.inwardnorm = false ∧
    (∃ u1 u2 : Tri,
      (recvStep wState wDatum 0 []).tris = wState.tris ++ [u1, u2] ∧
      u1.ttype = wDatum.tri1.ttype ∧ u1.mask = wDatum.tri1.mask ∧
      u1.p1 = wDatum.tri1.p1 ∧ u1.p2 = wDatum.tri1.p2 ∧ u1.p3 = wDatum.tri1.p3 ∧
      u1.norm = wDatum.tri1.norm ∧ u1.id = (wState.cell wDatum.othercell).id ∧
      u2.ttype = wDatum.tri2.ttype ∧ u2.mask = wDatum.tri2.mask ∧
      u2.p1 = wDatum.tri2.p1 ∧ u2.p2 = wDatum.tri2.p2 ∧ u2.p3 = wDatum.tri2.p3 ∧
      u2.norm = wDatum.tri2.norm ∧ u2.id = (wState.cell wDatum.othercell).id) :=
  ⟨by decide, claim_C10 wState wDatum [] (by decide)⟩

end Sparta
